import Mathlib

/-!
Verification development for the synthetic survey-data pipeline in
src/data.js (buildDataset and its helper stages), together with the
aggregation routine of the application layer.

Modelling conventions for the JavaScript source:
 - JS numbers that are always integer valued (the LCG state, scores,
   totals, counts, string lengths) are modelled as Nat, with the exact
   floating point comparison thresholds spelled out where a draw from
   the seeded generator is compared against a decimal literal
   (0.1, 0.05, 0.5: the nearest IEEE double of 0.1 is
   3602879701896397 / 2 ^ 55, of 0.05 is 3602879701896397 / 2 ^ 56,
   and 0.5 is exact).  A comparison state / 2 ^ 32 < c is rewritten as
   an exact integer inequality.
 - Math.floor(random() * k) is exact for the small k used by the code
   (2, 4, 6, 20, 90000) because state * k < 2 ^ 53, so it is modelled
   as state * k / 2 ^ 32 in Nat division.
 - The statistics (mean, stddev, ci95) operate on real numbers,
   idealising IEEE doubles as members of the real field.
 - JS objects with dynamic keys (raw responses, relabelled responses,
   aggregate rows) are modelled as association lists in insertion
   order, with object spread modelled by objSet / objMerge which
   follow the JS semantics: overwriting an existing key keeps its
   position, new keys are appended.
 - Math.random (used by shortHash, which builds credential id suffixes
   and passwords) is ambient entropy outside the seeded generator.  It
   is modelled as an oracle stream of strings, one entry per
   Math.random call, where the entry stands for the base-36 fractional
   digits Math.random().toString(36).substring(2); shortHash takes a
   prefix of the next entry.
-/

namespace IBData

/-! ## Seeded random source, src/data.js lines 117-123 -/

/-- One step of the linear congruential generator:
state = (1664525 * state + 1013904223) mod 2 ^ 32. -/
def lcg (s : Nat) : Nat := (1664525 * s + 1013904223) % 4294967296

/-- Initial state of createSeededRandom: seed >>> 0. -/
def rngInit (seed : Nat) : Nat := seed % 4294967296

/-- The float returned by one call of the seeded generator, state / 2 ^ 32,
idealised as a rational. -/
def lcgFloat (s : Nat) : ℚ := (lcg s : ℚ) / 4294967296

/-- Math.floor(random() * k): advances the state and floors the scaled
draw (exact for the k used in the source). -/
def randInt (s k : Nat) : Nat × Nat :=
  let s2 := lcg s
  (s2 * k / 4294967296, s2)

/-- Test random() < 0.1 (0.1 as the nearest IEEE double). -/
def randLtTenth (s : Nat) : Bool × Nat :=
  let s2 := lcg s
  (decide (s2 * 8388608 < 3602879701896397), s2)

/-- Test random() < 0.05 (0.05 as the nearest IEEE double). -/
def randLtTwentieth (s : Nat) : Bool × Nat :=
  let s2 := lcg s
  (decide (s2 * 16777216 < 3602879701896397), s2)

/-- Test random() < 0.5 (exact in IEEE doubles). -/
def randLtHalf (s : Nat) : Bool × Nat :=
  let s2 := lcg s
  (decide (s2 < 2147483648), s2)

/-! ## Decimal digit strings

JS template interpolation of an integer and Number.prototype.toString
render decimal digits.  The fuel based version reduces in the kernel;
specChars is the recursion-friendly specification used in proofs. -/

/-- Decimal digit character for a value below 10. -/
def digitChar (n : Nat) : Char := Char.ofNat (48 + n)

/-- Fuel-driven digit accumulator (most significant digit first). -/
def natStrGo : Nat → Nat → List Char → List Char
  | 0, _, acc => acc
  | f + 1, n, acc =>
    let acc2 := digitChar (n % 10) :: acc
    if n < 10 then acc2 else natStrGo f (n / 10) acc2

/-- Decimal digits of a natural number, matching JS number rendering for
integer values. -/
def natChars (n : Nat) : List Char := natStrGo (n + 1) n []

/-- Decimal string of a natural number. -/
def natStr (n : Nat) : String := String.mk (natChars n)

/-- Specification version of natChars by well-founded recursion. -/
def specChars (n : Nat) : List Char :=
  if _h : n < 10 then [digitChar n]
  else specChars (n / 10) ++ [digitChar (n % 10)]
decreasing_by exact Nat.div_lt_self (by omega) (by omega)

/-! ## Fixed catalogs, src/data.js lines 1-115 -/

structure Ttp where
  id : String
  name : String
deriving DecidableEq

def ttps : List Ttp :=
  [⟨"oxford-ttp", "Oxford Secure TTP"⟩, ⟨"shanghai-ttp", "Shanghai Harmony TTP"⟩]

structure NamePool where
  first : List String
  last : List String
deriving DecidableEq

def oxfordPool : NamePool :=
  { first := ["Alice", "Benjamin", "Charlotte", "Daniel", "Eleanor", "Finn",
      "Grace", "Harriet", "Isabelle", "Jacob", "Lily", "Matthew", "Nora",
      "Oliver", "Penelope", "Quentin", "Rose", "Samuel", "Thomas", "Victoria"],
    last := ["Anderson", "Bennett", "Carter", "Davies", "Evans", "Foster",
      "Green", "Hamilton", "Ingram", "Johnson", "Knight", "Lewis", "Morgan",
      "Nelson", "Owen", "Parker", "Quinn", "Roberts", "Stewart", "Turner"] }

def shanghaiPool : NamePool :=
  { first := ["An", "Bao", "Chun", "Daiyu", "Enlai", "Fang", "Guang",
      "Haoran", "Jiayi", "Kai", "Ling", "Ming", "Ning", "Peizhi", "Qiu",
      "Rong", "Shan", "Tao", "Wei", "Ying"],
    last := ["Chen", "Deng", "Fang", "Gao", "Han", "Huang", "Jiang", "Li",
      "Liu", "Ma", "Peng", "Qian", "Sun", "Tang", "Wang", "Xu", "Yang",
      "Zeng", "Zhang", "Zhou"] }

/-- ttpNamePools[ttpId] with the source fallback to the oxford pool. -/
def ttpNamePools (ttpId : String) : NamePool :=
  if ttpId = "oxford-ttp" then oxfordPool
  else if ttpId = "shanghai-ttp" then shanghaiPool
  else oxfordPool

structure School where
  id : String
  name : String
  ttpId : String
deriving DecidableEq

def schools : List School :=
  [⟨"oxford-high", "Oxford High", "oxford-ttp"⟩,
   ⟨"cherwell", "Cherwell School", "oxford-ttp"⟩,
   ⟨"magdalen", "Magdalen College School", "oxford-ttp"⟩,
   ⟨"pudong-high", "Pudong High School", "shanghai-ttp"⟩,
   ⟨"huangpu-academy", "Huangpu Academy", "shanghai-ttp"⟩]

def yearGroups : List String := ["Year 9", "Year 10", "Year 11"]

def waves : List String := ["Wave 1", "Wave 2", "Wave 3"]

structure Survey where
  id : String
  name : String
  items : Nat
deriving DecidableEq

def surveys : List Survey := [⟨"phq9", "PHQ-9", 9⟩, ⟨"gad7", "GAD-7", 7⟩]

/-! ## Population generator, src/data.js lines 125-159 -/

/-- sample(array, random) = array[Math.floor(random() * array.length)]. -/
def sample (l : List String) (s : Nat) : String × Nat :=
  let (i, s2) := randInt s l.length
  (l.getD i "", s2)

structure Student where
  id : String
  schoolId : String
  yearGroup : String
  name : String
deriving DecidableEq

/-- Student id: school id upper-cased, a dash and the decimal counter. -/
def mkStudentId (schoolId : String) (counter : Nat) : String :=
  schoolId.map Char.toUpper ++ "-" ++ natStr counter

/-- Object.fromEntries(schools.map(s => [s.id, s.ttpId])) as a lookup. -/
def schoolToTtp (sid : String) : String :=
  ((schools.find? (fun sc => sc.id = sid)).map (fun sc => sc.ttpId)).getD ""

/-- The do/while naming loop: draw a first and a last name, retry while
the full name was already used and fewer than 50 attempts were made.
The fuel argument counts the retries still allowed (49 on entry, since
the first attempt has already consumed one of the 50). -/
def drawName (pool : NamePool) (used : List String) : Nat → Nat → String × Nat
  | s, fuel =>
    let (f, s1) := sample pool.first s
    let (l, s2) := sample pool.last s1
    let name := f ++ " " ++ l
    if used.contains name then
      match fuel with
      | 0 => (name, s2)
      | fuel + 1 => drawName pool used s2 fuel
    else (name, s2)

/-- Inner cohort loop of buildStudents: emits one student per iteration,
incrementing the shared counter and recording the used name. -/
def cohortLoop (schoolId yg : String) (pool : NamePool) :
    Nat → Nat → List String → Nat → List Student × Nat × List String × Nat
  | 0, c, used, s => ([], c, used, s)
  | k + 1, c, used, s =>
    let (name, s2) := drawName pool used s 49
    let st : Student := ⟨mkStudentId schoolId c, schoolId, yg, name⟩
    let (rest, c2, used2, s3) := cohortLoop schoolId yg pool k (c + 1) (name :: used) s2
    (st :: rest, c2, used2, s3)

/-- Year-group loop: one cohort size draw (8 + floor(random() * 6)) per
year group, then the cohort loop. -/
def ygLoop (schoolId : String) (pool : NamePool) :
    List String → Nat → List String → Nat → List Student × Nat × List String × Nat
  | [], c, used, s => ([], c, used, s)
  | yg :: rest, c, used, s =>
    let r :=
      let (d, s1) := randInt s 6
      let cohortSize := 8 + d
      cohortLoop schoolId yg pool cohortSize c used s1
    let r2 := ygLoop schoolId pool rest r.2.1 r.2.2.1 r.2.2.2
    (r.1 ++ r2.1, r2.2)

/-- School loop of buildStudents. -/
def schoolLoop : List School → Nat → List String → Nat → List Student × Nat × List String × Nat
  | [], c, used, s => ([], c, used, s)
  | sc :: rest, c, used, s =>
    let pool := ttpNamePools (schoolToTtp sc.id)
    let r := ygLoop sc.id pool yearGroups c used s
    let r2 := schoolLoop rest r.2.1 r.2.2.1 r.2.2.2
    (r.1 ++ r2.1, r2.2)

/-- buildStudents(random): the counter starts at 1000 and the used-name
set starts empty.  Returns the students and the advanced LCG state. -/
def buildStudents (s : Nat) : List Student × Nat :=
  let (sts, _, _, s2) := schoolLoop schools 1000 [] s
  (sts, s2)

/-! ## Credential pool, src/data.js lines 161-201

shortHash draws from Math.random, not from the seeded generator.  The
ambient Math.random state is modelled by an oracle stream hs of strings
(the fractional base-36 digits of each draw) together with a running
index; shortHash(len) takes the first len characters of the next entry,
as substring(2, 2 + len) does on "0." followed by those digits. -/

/-- Math.ceil(n * 1.25), exact for the sizes in play. -/
def ceil125 (n : Nat) : Nat := (5 * n + 3) / 4

structure Cred where
  schoolId : String
  id : String
  password : String
deriving DecidableEq

/-- One studentCreds entry: the object spread
schoolId, ...creds, studentId, name, yearGroup (the credential fields
overwrite schoolId with the equal credential school id). -/
structure SCred where
  schoolId : String
  id : String
  password : String
  studentId : String
  name : String
  yearGroup : String
deriving DecidableEq

inductive CredError where
  /-- The throw: Not enough credentials for a student in a school. -/
  | insufficientCredentials (studentId schoolId : String)
  /-- Exhaustion of the fuel bounding the hash-collision retry loop;
  stands for divergence of the unbounded JS while loop. -/
  | hashRetryFuelExhausted
deriving DecidableEq

/-- shortHash(len) = Math.random().toString(36).substring(2, 2 + len),
one oracle entry per Math.random call. -/
def shortHash (hs : Nat → String) (k len : Nat) : String := (hs k).take len

/-- The collision retry loop: regenerate the hash while some already
generated credential has id school.id ++ "-" ++ hash. -/
def freshHash (hs : Nat → String) (acc : List Cred) (schoolId : String) :
    Nat → Nat → Except CredError (String × Nat)
  | k, fuel =>
    let hash := shortHash hs k 6
    if acc.any (fun cred => cred.id = schoolId ++ "-" ++ hash) then
      match fuel with
      | 0 => .error .hashRetryFuelExhausted
      | fuel + 1 => freshHash hs acc schoolId (k + 1) fuel
    else .ok (hash, k + 1)

/-- Inner credential loop: n records for one school, pushed onto the
global allCredentials accumulator; the password consumes two more
Math.random draws (shortHash(4) and shortHash(8)). -/
def genSchoolCreds (hs : Nat → String) (schoolId : String) :
    Nat → List Cred → Nat → Nat → Except CredError (List Cred × Nat)
  | 0, acc, k, _fuel => .ok (acc, k)
  | n + 1, acc, k, fuel =>
    match freshHash hs acc schoolId k fuel with
    | .error e => .error e
    | .ok (hash, k1) =>
      let cred : Cred :=
        ⟨schoolId, schoolId ++ "-" ++ hash,
         shortHash hs k1 4 ++ "-" ++ shortHash hs (k1 + 1) 8⟩
      genSchoolCreds hs schoolId n (acc ++ [cred]) (k1 + 2) fuel

/-- Per-school pool loop of buildCredentials.  The first line of the
loop body draws base = Math.floor(random() * 90000) + 10000 from the
seeded generator; the value is never used, but the draw advances the
seeded state once per school. -/
def poolLoop (hs : Nat → String) (students : List Student) :
    List School → List Cred → Nat → Nat → Nat → Except CredError (List Cred × Nat × Nat)
  | [], acc, k, s, _fuel => .ok (acc, k, s)
  | sc :: rest, acc, k, s, fuel =>
    let s1 := (randInt s 90000).2
    let nReq := (students.filter (fun st => st.schoolId = sc.id)).length
    match genSchoolCreds hs sc.id (ceil125 nReq) acc k fuel with
    | .error e => .error e
    | .ok (acc2, k2) => poolLoop hs students rest acc2 k2 s1 fuel

def mkSCred (st : Student) (c : Cred) : SCred :=
  ⟨c.schoolId, c.id, c.password, st.id, st.name, st.yearGroup⟩

/-- Assignment loop: for each student in order, the first credential of
their school not yet bound to a student; throws when none remains. -/
def assignLoop (allCreds : List Cred) : List Student → List SCred → Except CredError (List SCred)
  | [], acc => .ok acc
  | st :: rest, acc =>
    let myCreds := (allCreds.filter (fun c => c.schoolId = st.schoolId)).filter
      (fun c => ¬ acc.any (fun sc => sc.id = c.id))
    match myCreds with
    | [] => .error (.insufficientCredentials st.id st.schoolId)
    | c :: _ => assignLoop allCreds rest (acc ++ [mkSCred st c])

structure CredsOut where
  allCredentials : List Cred
  studentCreds : List SCred
  state : Nat
  hsIdx : Nat
deriving DecidableEq

def buildCredentials (students : List Student) (hs : Nat → String)
    (k s fuel : Nat) : Except CredError CredsOut :=
  match poolLoop hs students schools [] k s fuel with
  | .error e => .error e
  | .ok (acc, k2, s2) =>
    match assignLoop acc students [] with
    | .error e => .error e
    | .ok scs => .ok ⟨acc, scs, s2, k2⟩

/-! ## Rewrite map, src/data.js lines 203-209 -/

structure RewriteEntry where
  schoolId : String
  studentId : String
  uid : String
deriving DecidableEq

/-- padStart(5, the zero character). -/
def pad5 (ds : List Char) : List Char := List.replicate (5 - ds.length) '0' ++ ds

/-- UID-00001 style identifier for position n (1-based). -/
def uidString (n : Nat) : String := "UID-" ++ String.mk (pad5 (natChars n))

/-- buildRewriteMap(students, random): the random argument of the source
is never drawn from, so it is omitted here. -/
def buildRewriteMap (students : List Student) : List RewriteEntry :=
  students.enum.map (fun p => ⟨p.2.schoolId, p.2.id, uidString (p.1 + 1)⟩)

/-! ## JS objects with dynamic keys

Raw responses, relabelled responses and aggregate rows carry keys built
at run time, so they are modelled as association lists in insertion
order.  All numeric values stored in them by this pipeline are integer
valued, hence the Nat payload. -/

inductive JVal where
  | str : String → JVal
  | num : Nat → JVal
  | bool : Bool → JVal
  | undefined : JVal
deriving DecidableEq

abbrev Obj := List (String × JVal)

/-- Setting a key on an object, as object spread does: an existing key
keeps its position and gets the new value, a new key is appended. -/
def objSet (r : Obj) (k : String) (v : JVal) : Obj :=
  if (r.map Prod.fst).contains k then
    r.map (fun p => if p.1 = k then (k, v) else p)
  else r ++ [(k, v)]

/-- Spreading-in a list of pairs left to right. -/
def objMerge (r : Obj) (l : Obj) : Obj := l.foldl (fun acc p => objSet acc p.1 p.2) r

/-! ## Response simulator, src/data.js lines 211-247 -/

/-- Item key for surveyId and zero-based index idx. -/
def itemKey (surveyId : String) (idx : Nat) : String :=
  surveyId ++ "-item-" ++ natStr idx

/-- The base response object built at the top of the wave loop. -/
def respBase (st : Student) (wave : String) : Obj :=
  [("studentId", .str st.id), ("schoolId", .str st.schoolId),
   ("yearGroup", .str st.yearGroup), ("wave", .str wave)]

/-- Item generation for one survey: per item the normal score
Math.floor(random() * 4) is always drawn; in an elevated wave a second
draw gives Math.min(3, 2 + Math.floor(random() * 2)) instead.  Returns
the item pairs, the accumulated total and the advanced state. -/
def genItems (surveyId : String) (elev : Bool) :
    Nat → Nat → Nat → List (String × JVal) × Nat × Nat
  | _idx, 0, s => ([], 0, s)
  | idx, n + 1, s =>
    let sc :=
      let (normal, s1) := randInt s 4
      cond elev
        (let (d, s2) := randInt s1 2
         (min 3 (2 + d), s2))
        (normal, s1)
    let r := genItems surveyId elev (idx + 1) n sc.2
    ((itemKey surveyId idx, .num sc.1) :: r.1, sc.1 + r.2.1, r.2.2)

/-- Per-survey loop: response = spread of the response so far, the
survey total under surveyId-total, then the item entries. -/
def addSurveyBlocks (elev : Bool) : List Survey → Obj → Nat → Obj × Nat
  | [], r, s => (r, s)
  | sv :: rest, r, s =>
    let g := genItems sv.id elev 0 sv.items s
    let r2 := objMerge r ((sv.id ++ "-total", .num g.2.1) :: g.1)
    addSurveyBlocks elev rest r2 g.2.2

/-- Wave loop for one student.  A 5 percent draw skips the wave
(continue: no response, latent state untouched); otherwise
elevatedThisWave = highResponseActive || (10 percent draw), with the
JS short-circuit skipping the draw when the state is already high.
After emitting the response the latent state is updated: a high state
turns off on a half draw; a low state with an elevated wave turns on
on a half draw. -/
def wavesLoop (st : Student) : List String → Bool → Nat → List Obj × Nat
  | [], _high, s => ([], s)
  | w :: ws, high, s =>
    let base := respBase st w
    let sk := randLtTwentieth s
    cond sk.1 (wavesLoop st ws high sk.2)
      (let el := cond high (true, sk.2) (randLtTenth sk.2)
       let rp := addSurveyBlocks el.1 surveys base el.2
       let up :=
         cond high
           (let d := randLtHalf rp.2
            (cond d.1 false high, d.2))
           (cond el.1
             (let d := randLtHalf rp.2
              (cond d.1 true high, d.2))
             (high, rp.2))
       let r2 := wavesLoop st ws up.1 up.2
       (rp.1 :: r2.1, r2.2))

/-- buildSurveyResponses: per student an initial 10 percent draw
initialises the latent state, then the wave loop runs. -/
def buildSurveyResponses : List Student → Nat → List Obj × Nat
  | [], s => ([], s)
  | st :: rest, s =>
    let h0 := randLtTenth s
    let r1 := wavesLoop st waves h0.1 h0.2
    let r2 := buildSurveyResponses rest r1.2
    (r1.1 ++ r2.1, r2.2)

/-! ## Statistics, src/data.js lines 249-262

JS doubles are idealised as real numbers. -/

/-- mean: the sum divided by (array.length || 1), so 0 on the empty
list. -/
noncomputable def mean (l : List ℝ) : ℝ :=
  l.sum / (if l.length = 0 then 1 else (l.length : ℝ))

/-- Sample standard deviation with divisor n - 1, 0 when n <= 1. -/
noncomputable def stddev (l : List ℝ) : ℝ :=
  if l.length ≤ 1 then 0
  else Real.sqrt ((l.map (fun v => (v - mean l) ^ 2)).sum / ((l.length : ℝ) - 1))

/-- ci95 = 1.96 * stddev / sqrt(n), 0 when the list is empty. -/
noncomputable def ci95 (l : List ℝ) : ℝ :=
  if l.length = 0 then 0 else 1.96 * (stddev l / Real.sqrt (l.length : ℝ))

/-- Number.prototype.toFixed(2) for the nonnegative idealised values
this pipeline produces: round half up at two decimals and render. -/
noncomputable def toFixed2 (r : ℝ) : String :=
  let n : Nat := (⌊r * 100 + 1 / 2⌋).toNat
  natStr (n / 100) ++ "." ++ String.mk (List.replicate (2 - (natChars (n % 100)).length) '0' ++ natChars (n % 100))

/-! ## Pseudonymizer, src/data.js lines 304-311 -/

/-- JS Map built from [studentId, uid] pairs: with duplicate keys the
last entry wins. -/
def mapGet (m : List RewriteEntry) (sid : String) : Option String :=
  ((m.filter (fun e => e.studentId = sid)).getLast?).map (fun e => e.uid)

/-- byStudent.get(resp.studentId) || the UNKNOWN sentinel; the JS or
also replaces an empty-string uid. -/
def uidLookup (m : List RewriteEntry) (r : Obj) : String :=
  match List.lookup "studentId" r with
  | some (.str sid) =>
    match mapGet m sid with
    | some u => if u = "" then "UNKNOWN" else u
    | _ => "UNKNOWN"
  | _ => "UNKNOWN"

/-- relabelResponses: spread of the response with studentId set to
undefined (the key stays, carrying undefined) and uid appended. -/
def relabelResponses (rs : List Obj) (m : List RewriteEntry) : List Obj :=
  rs.map (fun r => objSet (objSet r "studentId" JVal.undefined) "uid" (.str (uidLookup m r)))

/-! ## Aggregation engine, src/data.js lines 264-302 -/

/-- Rendering of a value inside Array.prototype.join: strings stay,
numbers print in decimal, null and undefined become empty. -/
def jsJoinVal (v : Option JVal) : String :=
  match v with
  | some (.str s) => s
  | some (.num n) => natStr n
  | some (.bool b) => if b then "true" else "false"
  | _ => ""

/-- Group key [resp.schoolId, resp.yearGroup, resp.wave].join with the
pipe character. -/
def respKey (r : Obj) : String :=
  String.intercalate "|"
    [jsJoinVal (List.lookup "schoolId" r), jsJoinVal (List.lookup "yearGroup" r),
     jsJoinVal (List.lookup "wave" r)]

/-- Keys of the grouping Map in insertion (first occurrence) order. -/
def groupKeys (rs : List Obj) : List String :=
  rs.foldl (fun ks r => if ks.contains (respKey r) then ks else ks ++ [respKey r]) []

/-- response[surveyId-total] ?? 0.  The nullish fallback triggers on a
missing key or an undefined value; the totals this pipeline stores are
always numbers. -/
def numOrZero (v : Option JVal) : Nat :=
  match v with
  | some (.num n) => n
  | _ => 0

/-- The four stats entries one survey contributes to an aggregate row:
total, n, and the toFixed(2) strings for mean and ci95. -/
noncomputable def surveyStats (group : List Obj) (sv : Survey) : List (String × JVal) :=
  let totals := group.map (fun r => numOrZero (List.lookup (sv.id ++ "-total") r))
  [(sv.id ++ "-total", .num totals.sum),
   (sv.id ++ "-n", .num totals.length),
   (sv.id ++ "-mean", .str (toFixed2 (mean (totals.map (fun n => (n : ℝ)))))),
   (sv.id ++ "-ci95", .str (toFixed2 (ci95 (totals.map (fun n => (n : ℝ))))))]

/-- Field recovered by destructuring key.split of the pipe character:
a missing position is undefined. -/
def keyField (fields : List String) (i : Nat) : JVal :=
  match fields.get? i with
  | some v => .str v
  | none => .undefined

/-- One aggregate row: schoolId, yearGroup, wave recovered from the
group key, then the spread of the per-survey stats. -/
noncomputable def aggRow (rs : List Obj) (k : String) : Obj :=
  let group := rs.filter (fun r => respKey r = k)
  let fields := k.splitOn "|"
  let base : Obj :=
    [("schoolId", keyField fields 0), ("yearGroup", keyField fields 1),
     ("wave", keyField fields 2)]
  objMerge base (surveys.map (surveyStats group)).flatten

/-- aggregateStatic: one row per group key, in Map iteration order. -/
noncomputable def aggregateStatic (rs : List Obj) : List Obj :=
  (groupKeys rs).map (aggRow rs)

/-- JS relational comparison of a looked-up field with a number: false
whenever the field is missing or undefined (NaN comparison). -/
def jsLtNum (v : Option JVal) (t : Nat) : Bool :=
  match v with
  | some (.num n) => decide (n < t)
  | _ => false

/-- aggregateDynamic: spreads suppressed := agg.n < 5 and the matching
notes string onto every static row.  Note that the rows store their
counts under surveyId-n, so the lookup of the key n is what the code
does, not what its notes text announces. -/
noncomputable def aggregateDynamic (rs : List Obj) : List Obj :=
  (aggregateStatic rs).map (fun agg =>
    let cond := jsLtNum (List.lookup "n" agg) 5
    objSet (objSet agg "suppressed" (.bool cond))
      "notes" (.str (if cond then "Suppressed: fewer than 5 records"
                     else "Ready for responsive queries")))

/-! ## Dataset assembly, src/data.js lines 313-372 -/

structure MetaEntry where
  entity : String
  access : List String
  category : String
  purpose : String
deriving DecidableEq

def buildMetadataSummary : List MetaEntry :=
  [⟨"Oxford University",
    ["Aggregated data", "Cross-school comparisons", "Anonymised survey stats"],
    "Anonymous (fully)", "Research and monitoring"⟩,
   ⟨"Trusted Third Party (TTP)",
    ["ID rewrite maps", "Pseudonymous survey data", "Aggregation logic"],
    "Pseudonymous", "Linkage and safe release"⟩,
   ⟨"Schools",
    ["Student credentials", "School-level surveys", "Operational reports"],
    "PID and Pseudonymous", "Local pastoral support"⟩]

structure MatrixEntry where
  entity : String
  pid : List String
  pseudo : List String
  anonRe : List String
  anon : List String
deriving DecidableEq

def buildEntityMatrix : List MatrixEntry :=
  [⟨"Oxford University", [], ["Relabelled survey responses"],
    ["Static aggregated data", "Dynamic aggregated data"], ["Cross-school survey trends"]⟩,
   ⟨"Trusted Third Party", [], ["ID rewrite map"], ["Relabelled survey responses"], []⟩,
   ⟨"Schools", ["ID + Password + Student"], ["ID Rewrite Map"],
    ["Relabelled survey responses"], ["Static aggregated data"]⟩]

structure Dataset where
  seed : Nat
  schools : List School
  yearGroups : List String
  waves : List String
  surveys : List Survey
  students : List Student
  credentials : List Cred
  studentCredentials : List SCred
  surveyResponses : List Obj
  rewriteMap : List RewriteEntry
  relabelledSurveyResponses : List Obj
  staticAggregated : List Obj
  dynamicAggregated : List Obj
  metadata : List MetaEntry
  entityMatrix : List MatrixEntry
  ttps : List Ttp

/-- buildDataset(seed): the full pipeline.  Besides the seed it takes
the Math.random oracle stream hs consumed by shortHash and the fuel
bounding the hash-collision retry loop; the JS function has no such
parameters because Math.random is ambient global state. -/
noncomputable def buildDataset (seed : Nat) (hs : Nat → String) (fuel : Nat) :
    Except CredError Dataset :=
  let s0 := rngInit seed
  let (students, s1) := buildStudents s0
  match buildCredentials students hs 0 s1 fuel with
  | .error e => .error e
  | .ok credsOut =>
    let rewriteMap := buildRewriteMap students
    let (surveysRaw, _s3) := buildSurveyResponses students credsOut.state
    let relabelled := relabelResponses surveysRaw rewriteMap
    .ok ⟨seed, schools, yearGroups, waves, surveys, students,
         credsOut.allCredentials, credsOut.studentCreds, surveysRaw,
         rewriteMap, relabelled, aggregateStatic relabelled,
         aggregateDynamic relabelled, buildMetadataSummary,
         buildEntityMatrix, ttps⟩

/-! ## Object lookup lemmas -/


theorem lookup_of_not_mem_keys {r : Obj} {k : String} (h : ¬ k ∈ r.map Prod.fst) :
    List.lookup k r = none := by
  induction r with
  | nil => rfl
  | cons p t ih =>
    obtain ⟨k1, v1⟩ := p
    simp only [List.map_cons, List.mem_cons, not_or] at h
    simp [List.lookup_cons, beq_false_of_ne h.1, ih h.2]

theorem lookup_map_setKey (t : Obj) (k : String) (v : JVal) (hm : k ∈ t.map Prod.fst) :
    List.lookup k (t.map (fun p => if p.1 = k then (k, v) else p)) = some v := by
  induction t with
  | nil => simp at hm
  | cons p t ih =>
    obtain ⟨k1, v1⟩ := p
    by_cases hp : k1 = k
    · subst hp
      simp [List.lookup_cons]
    · simp only [List.map_cons, List.mem_cons] at hm
      have hm2 : k ∈ t.map Prod.fst := by
        rcases hm with h | h
        · exact absurd h.symm hp
        · exact h
      have hne : (k == k1) = false := beq_false_of_ne (fun h => hp h.symm)
      simp only [List.map_cons, if_neg hp, List.lookup_cons, hne]
      exact ih hm2

theorem lookup_append_right (t l : Obj) (k : String)
    (hk : ¬ k ∈ t.map Prod.fst) : List.lookup k (t ++ l) = List.lookup k l := by
  induction t with
  | nil => rfl
  | cons p t ih =>
    obtain ⟨k1, v1⟩ := p
    simp only [List.map_cons, List.mem_cons, not_or] at hk
    simp only [List.cons_append, List.lookup_cons, beq_false_of_ne hk.1]
    exact ih hk.2

theorem lookup_objSet_self (r : Obj) (k : String) (v : JVal) :
    List.lookup k (objSet r k v) = some v := by
  unfold objSet
  by_cases hc : (r.map Prod.fst).contains k
  · simp only [hc, if_true]
    exact lookup_map_setKey r k v (List.elem_iff.mp hc)
  · have hcf : ((r.map Prod.fst).contains k) = false := by
      exact Bool.not_eq_true _ ▸ (by simpa using hc)
    have hk : ¬ k ∈ r.map Prod.fst := fun h => hc (List.elem_iff.mpr h)
    simp only [hcf, Bool.false_eq_true, if_false]
    rw [lookup_append_right r _ k hk]
    simp [List.lookup_cons]

theorem lookup_map_setKey_ne (t : Obj) {k k2 : String} (v : JVal) (h : k2 ≠ k) :
    List.lookup k2 (t.map (fun p => if p.1 = k then (k, v) else p)) = List.lookup k2 t := by
  induction t with
  | nil => rfl
  | cons p t ih =>
    obtain ⟨k1, v1⟩ := p
    by_cases hp : k1 = k
    · subst hp
      simp [List.lookup_cons, beq_false_of_ne h, ih]
    · by_cases hk2 : k2 = k1
      · subst hk2
        simp [List.lookup_cons, if_neg hp]
      · simp [List.lookup_cons, if_neg hp, beq_false_of_ne hk2, ih]

theorem lookup_append_single_ne (r : Obj) {k k2 : String} (v : JVal) (h : k2 ≠ k) :
    List.lookup k2 (r ++ [(k, v)]) = List.lookup k2 r := by
  induction r with
  | nil => simp [List.lookup_cons, beq_false_of_ne h]
  | cons p t ih =>
    obtain ⟨k1, v1⟩ := p
    by_cases hk2 : k2 = k1
    · subst hk2
      simp [List.lookup_cons]
    · simp only [List.cons_append, List.lookup_cons, beq_false_of_ne hk2]
      exact ih

theorem lookup_objSet_ne (r : Obj) {k k2 : String} (v : JVal) (h : k2 ≠ k) :
    List.lookup k2 (objSet r k v) = List.lookup k2 r := by
  unfold objSet
  by_cases hc : (r.map Prod.fst).contains k
  · simp only [hc, if_true]
    exact lookup_map_setKey_ne r v h
  · have hcf : ((r.map Prod.fst).contains k) = false := by
      exact Bool.not_eq_true _ ▸ (by simpa using hc)
    simp only [hcf, Bool.false_eq_true, if_false]
    exact lookup_append_single_ne r v h


/-! ## Helper lemmas for the pseudonymizer claims -/

theorem relabel_length (rs : List Obj) (m : List RewriteEntry) :
    (relabelResponses rs m).length = rs.length := by
  simp [relabelResponses]

theorem relabel_getD (rs : List Obj) (m : List RewriteEntry) (i : Nat) (hi : i < rs.length) :
    (relabelResponses rs m).getD i [] =
      objSet (objSet (rs.get ⟨i, hi⟩) "studentId" JVal.undefined) "uid"
        (.str (uidLookup m (rs.get ⟨i, hi⟩))) := by
  unfold relabelResponses
  rw [List.getD_eq_getElem?_getD, List.getElem?_map, List.getElem?_eq_getElem hi]
  rfl

theorem mapGet_eq_none (m : List RewriteEntry) (sid : String)
    (h : ¬ sid ∈ m.map (fun e => e.studentId)) : mapGet m sid = none := by
  unfold mapGet
  have : m.filter (fun e => e.studentId = sid) = [] := by
    rw [List.filter_eq_nil_iff]
    intro e he
    simp only [decide_eq_true_eq]
    intro hes
    exact h (List.mem_map.mpr ⟨e, he, hes⟩)
  rw [this]
  rfl

theorem mapGet_mem (m : List RewriteEntry) (sid u : String)
    (h : mapGet m sid = some u) : ∃ e ∈ m, e.uid = u := by
  unfold mapGet at h
  cases hl : (m.filter (fun e => e.studentId = sid)).getLast? with
  | none => rw [hl] at h; exact absurd h (by simp)
  | some e =>
    rw [hl] at h
    have he : e ∈ m.filter (fun e => e.studentId = sid) := List.mem_of_mem_getLast? hl
    exact ⟨e, List.mem_of_mem_filter he, by simpa using h.symm.symm⟩

/-! ## Claim C7 -/

/-- C7: relabelling a response whose student id is not present in the
rewrite map yields the sentinel uid UNKNOWN rather than raising an
error; for a student id that is present, the uid is the mapped UID
(the rewrite maps in play never carry an empty uid, which the JS
falsy-or would also replace). -/
theorem c7_relabel_unknown_sentinel (rs : List Obj) (m : List RewriteEntry)
    (hm : ∀ e ∈ m, e.uid ≠ "") (i : Nat) (hi : i < rs.length) (sid : String)
    (hsid : List.lookup "studentId" (rs.get ⟨i, hi⟩) = some (.str sid)) :
    (¬ sid ∈ m.map (fun e => e.studentId) →
      List.lookup "uid" ((relabelResponses rs m).getD i []) = some (.str "UNKNOWN")) ∧
    (∀ u, mapGet m sid = some u →
      List.lookup "uid" ((relabelResponses rs m).getD i []) = some (.str u)) := by
  rw [relabel_getD rs m i hi, lookup_objSet_self]
  unfold uidLookup
  rw [hsid]
  constructor
  · intro hnot
    simp [mapGet_eq_none m sid hnot]
  · intro u hu
    obtain ⟨e, hem, heu⟩ := mapGet_mem m sid u hu
    simp [hu, heu ▸ hm e hem]

/-- Witness for C7 at concrete inputs: one response whose student id is
missing from the map, and one whose student id is mapped. -/
theorem c7_relabel_unknown_sentinel_witness :
    List.lookup "uid" ((relabelResponses [[("studentId", JVal.str "S1")]]
        [⟨"oxford-high", "S2", "UID-00001"⟩]).getD 0 []) = some (.str "UNKNOWN") ∧
    List.lookup "uid" ((relabelResponses [[("studentId", JVal.str "S2")]]
        [⟨"oxford-high", "S2", "UID-00001"⟩]).getD 0 []) = some (.str "UID-00001") :=
  ⟨(c7_relabel_unknown_sentinel [[("studentId", JVal.str "S1")]]
      [⟨"oxford-high", "S2", "UID-00001"⟩] (by decide) 0 (by decide) "S1" (by decide)).1
      (by decide),
   (c7_relabel_unknown_sentinel [[("studentId", JVal.str "S2")]]
      [⟨"oxford-high", "S2", "UID-00001"⟩] (by decide) 0 (by decide) "S2" (by decide)).2
      "UID-00001" (by decide)⟩

/-! ## Claim C8 -/

/-- C8 counterexample: the claim says the student-id field is removed
entirely, but relabelling the concrete response below leaves the
studentId key present (with an undefined value), so its lookup is not
none. -/
theorem c8_relabel_counterexample :
    List.lookup "studentId" ((relabelResponses
      [[("studentId", JVal.str "S1"), ("wave", JVal.str "Wave 1")]] []).getD 0 []) ≠ none := by
  decide

/-- C8 as amended: relabelling returns one output per input response in
the same order; each output agrees with its input on every field other
than studentId and uid, carries a uid field, and has its studentId
field set to the undefined value (the key remains present rather than
being removed). -/
theorem c8_relabel_frame (rs : List Obj) (m : List RewriteEntry) (i : Nat)
    (hi : i < rs.length) :
    (relabelResponses rs m).length = rs.length ∧
    (∀ k, k ≠ "studentId" → k ≠ "uid" →
      List.lookup k ((relabelResponses rs m).getD i []) = List.lookup k (rs.get ⟨i, hi⟩)) ∧
    List.lookup "studentId" ((relabelResponses rs m).getD i []) = some JVal.undefined ∧
    List.lookup "uid" ((relabelResponses rs m).getD i []) =
      some (.str (uidLookup m (rs.get ⟨i, hi⟩))) := by
  refine ⟨relabel_length rs m, ?_, ?_, ?_⟩
  · intro k hk1 hk2
    rw [relabel_getD rs m i hi, lookup_objSet_ne _ _ hk2, lookup_objSet_ne _ _ hk1]
  · rw [relabel_getD rs m i hi,
      lookup_objSet_ne _ _ (by decide : "studentId" ≠ "uid"), lookup_objSet_self]
  · rw [relabel_getD rs m i hi, lookup_objSet_self]

/-- Witness for C8 at a concrete response: the wave field survives
unchanged and the studentId key carries undefined. -/
theorem c8_relabel_frame_witness :
    List.lookup "wave" ((relabelResponses
      [[("studentId", JVal.str "S1"), ("wave", JVal.str "Wave 1")]] []).getD 0 []) =
      some (JVal.str "Wave 1") ∧
    List.lookup "studentId" ((relabelResponses
      [[("studentId", JVal.str "S1"), ("wave", JVal.str "Wave 1")]] []).getD 0 []) =
      some JVal.undefined :=
  ⟨((c8_relabel_frame [[("studentId", JVal.str "S1"), ("wave", JVal.str "Wave 1")]] []
      0 (by decide)).2.1 "wave" (by decide) (by decide)).trans (by decide),
   (c8_relabel_frame [[("studentId", JVal.str "S1"), ("wave", JVal.str "Wave 1")]] []
      0 (by decide)).2.2.1⟩

/-! ## Claim C2 -/

/-- A concrete relabelled response forming a singleton group (count 1,
below the default threshold 5). -/
def c2resp : Obj :=
  [("uid", .str "UID-00001"), ("schoolId", .str "oxford-high"),
   ("yearGroup", .str "Year 9"), ("wave", .str "Wave 1"),
   ("phq9-total", .num 10), ("gad7-total", .num 5)]

/-- C2: evaluation of aggregateDynamic at a failing input.  The single
aggregate row has primary-survey count phq9-n equal to 1, which is
below the threshold 5, yet its suppressed flag is false: the code reads
agg.n, a key no row carries (the lookup of the key n yields nothing),
so the comparison with 5 is always false.  This contradicts the
suppression rule stated by the claim and by the notes text the row
itself carries. -/
theorem c2_suppression_bug_eval :
    (aggregateDynamic [c2resp]).length = 1 ∧
    List.lookup "phq9-n" ((aggregateDynamic [c2resp]).getD 0 []) = some (.num 1) ∧
    (1 : Nat) < 5 ∧
    List.lookup "n" ((aggregateDynamic [c2resp]).getD 0 []) = none ∧
    List.lookup "suppressed" ((aggregateDynamic [c2resp]).getD 0 []) = some (.bool false) :=
  ⟨rfl, rfl, by norm_num, rfl, rfl⟩

/-! ## Claim C3 -/

/-- C3 counterexample: the first float for seed 1 is
1015568748 / 2 ^ 32 = 0.2364555..., which differs from the claimed
0.2363 by more than one unit in the fourth decimal place, so the
claimed value is not accurate to 4 decimal places. -/
theorem c3_prng_counterexample :
    ¬ (|lcgFloat (rngInit 1) - 2363 / 10000| ≤ 1 / 10000) := by
  have h : lcgFloat (rngInit 1) = 1015568748 / 4294967296 := by
    norm_num [lcgFloat, lcg, rngInit]
  rw [h]
  rw [abs_le]
  intro hc
  have := hc.2
  norm_num at this

/-- C3 as amended: the seeded source steps by
state = (1664525 * state + 1013904223) mod 2 ^ 32 and returns
state / 2 ^ 32, a float in [0, 1); for seed 1 the first state is
exactly 1015568748 and the first float is exactly
1015568748 / 2 ^ 32, which is 0.2365 to four decimal places
(not 0.2363). -/
theorem c3_prng_amended :
    (∀ s : Nat, lcg s = (1664525 * s + 1013904223) % 2 ^ 32) ∧
    (∀ s : Nat, 0 ≤ lcgFloat s ∧ lcgFloat s < 1) ∧
    lcg (rngInit 1) = 1015568748 ∧
    lcgFloat (rngInit 1) = 1015568748 / 4294967296 ∧
    |lcgFloat (rngInit 1) - 2365 / 10000| < 5 / 100000 := by
  refine ⟨fun s => rfl, fun s => ⟨?_, ?_⟩, by norm_num [lcg, rngInit], ?_, ?_⟩
  · unfold lcgFloat
    positivity
  · unfold lcgFloat
    rw [div_lt_one (by norm_num)]
    have h : lcg s < 4294967296 := Nat.mod_lt _ (by norm_num)
    exact_mod_cast h
  · norm_num [lcgFloat, lcg, rngInit]
  · have h : lcgFloat (rngInit 1) = 1015568748 / 4294967296 := by
      norm_num [lcgFloat, lcg, rngInit]
    rw [h, abs_lt]
    constructor <;> norm_num

/-! ## Claim C9 -/

/-- C9: the statistics functions: the mean of the empty list is 0; the
sample standard deviation uses divisor n - 1 and is 0 when n <= 1;
ci95 is 1.96 times stddev over sqrt n and is 0 on the empty list; and
on the totals [1, 2, 3] the mean is 2, the sample standard deviation
is 1, and ci95 lies in [1.125, 1.135), hence rounds to 1.13 at two
decimal places. -/
theorem c9_statistics :
    mean [] = 0 ∧
    (∀ l : List ℝ, l.length ≤ 1 → stddev l = 0) ∧
    ci95 [] = 0 ∧
    (∀ l : List ℝ, l ≠ [] → ci95 l = 1.96 * (stddev l / Real.sqrt (l.length : ℝ))) ∧
    (∀ l : List ℝ, 2 ≤ l.length →
      stddev l = Real.sqrt ((l.map (fun v => (v - mean l) ^ 2)).sum / ((l.length : ℝ) - 1))) ∧
    mean [1, 2, 3] = 2 ∧
    stddev [1, 2, 3] = 1 ∧
    1.125 ≤ ci95 [1, 2, 3] ∧ ci95 [1, 2, 3] < 1.135 := by
  have hmean : mean [(1 : ℝ), 2, 3] = 2 := by
    unfold mean
    norm_num
  have hstd : stddev [(1 : ℝ), 2, 3] = 1 := by
    unfold stddev
    rw [if_neg (by norm_num)]
    rw [hmean]
    norm_num
  have hsqrt3pos : (0 : ℝ) < Real.sqrt 3 := Real.sqrt_pos.mpr (by norm_num)
  have hsqrt3sq : Real.sqrt 3 * Real.sqrt 3 = 3 := Real.mul_self_sqrt (by norm_num)
  have hci : ci95 [(1 : ℝ), 2, 3] = 1.96 * (1 / Real.sqrt 3) := by
    unfold ci95
    rw [if_neg (by norm_num), hstd]
    norm_num
  refine ⟨by unfold mean; simp, ?_, by unfold ci95; simp, ?_, ?_, hmean, hstd, ?_, ?_⟩
  · intro l hl
    unfold stddev
    rw [if_pos hl]
  · intro l hl
    unfold ci95
    rw [if_neg (fun h => hl (List.length_eq_zero.mp h))]
  · intro l hl
    unfold stddev
    rw [if_neg (by omega)]
  · have hub : Real.sqrt 3 < 1.7422 := by nlinarith [hsqrt3sq, hsqrt3pos]
    rw [hci, mul_one_div, le_div_iff₀ hsqrt3pos]
    nlinarith [hub]
  · have hlb : (1.7269 : ℝ) < Real.sqrt 3 := by nlinarith [hsqrt3sq, hsqrt3pos]
    rw [hci, mul_one_div, div_lt_iff₀ hsqrt3pos]
    nlinarith [hlb]

/-- Witness for C9: the hypotheses of the quantified conjuncts hold at
the concrete lists used by the claim. -/
theorem c9_statistics_witness :
    stddev [(7 : ℝ)] = 0 ∧
    ci95 [(1 : ℝ), 2, 3] =
      1.96 * (stddev [(1 : ℝ), 2, 3] / Real.sqrt (([(1 : ℝ), 2, 3].length : ℝ))) :=
  ⟨c9_statistics.2.1 [7] (by norm_num),
   c9_statistics.2.2.2.1 [1, 2, 3] (by simp)⟩


/-! ## Digit string lemmas -/

theorem specChars_of_lt {n : Nat} (h : n < 10) : specChars n = [digitChar n] := by
  rw [specChars, dif_pos h]

theorem specChars_of_ge {n : Nat} (h : ¬ n < 10) :
    specChars n = specChars (n / 10) ++ [digitChar (n % 10)] := by
  rw [specChars, dif_neg h]

theorem natStrGo_eq_specChars :
    ∀ f n acc, n < 10 ^ (f + 1) → natStrGo (f + 1) n acc = specChars n ++ acc := by
  intro f
  induction f with
  | zero =>
    intro n acc hn
    have h10 : n < 10 := by simpa using hn
    rw [natStrGo, specChars_of_lt h10]
    simp [h10, Nat.mod_eq_of_lt h10]
  | succ f ih =>
    intro n acc hn
    by_cases h10 : n < 10
    · rw [natStrGo, specChars_of_lt h10]
      simp [h10, Nat.mod_eq_of_lt h10]
    · rw [natStrGo]
      simp only [h10, if_false]
      have hdiv : n / 10 < 10 ^ (f + 1) := by
        rw [Nat.div_lt_iff_lt_mul (by norm_num)]
        calc n < 10 ^ (f + 2) := hn
        _ = 10 ^ (f + 1) * 10 := by ring
      rw [ih (n / 10) _ hdiv, specChars_of_ge h10]
      simp

theorem natChars_eq_specChars (n : Nat) : natChars n = specChars n := by
  have hlt : n < 10 ^ (n + 1) :=
    lt_of_lt_of_le (Nat.lt_pow_self (by norm_num) n)
      (Nat.pow_le_pow_right (by norm_num) (by omega))
  unfold natChars
  rw [natStrGo_eq_specChars n n [] hlt]
  simp

/-- Decimal decoding, the left inverse of digit rendering. -/
def decodeFrom (a : Nat) (l : List Char) : Nat :=
  l.foldl (fun acc c => 10 * acc + (c.toNat - 48)) a

theorem decodeFrom_append (a : Nat) (l1 l2 : List Char) :
    decodeFrom a (l1 ++ l2) = decodeFrom (decodeFrom a l1) l2 := by
  unfold decodeFrom
  exact List.foldl_append _ _ _ _

theorem digitChar_toNat {n : Nat} (h : n < 10) : (digitChar n).toNat = 48 + n := by
  interval_cases n <;> decide

theorem decode_specChars (n : Nat) :
    ∀ a, decodeFrom a (specChars n) = a * 10 ^ (specChars n).length + n := by
  induction n using Nat.strong_induction_on with
  | _ n ih =>
    intro a
    by_cases h10 : n < 10
    · rw [specChars_of_lt h10]
      unfold decodeFrom
      simp only [List.foldl_cons, List.foldl_nil, List.length_singleton, pow_one]
      rw [digitChar_toNat h10]
      omega
    · rw [specChars_of_ge h10, decodeFrom_append]
      have hdiv : n / 10 < n := Nat.div_lt_self (by omega) (by omega)
      rw [ih (n / 10) hdiv a]
      unfold decodeFrom
      simp only [List.foldl_cons, List.foldl_nil, List.length_append,
        List.length_singleton]
      rw [digitChar_toNat (Nat.mod_lt _ (by omega))]
      rw [pow_succ]
      have hrw : a * (10 ^ (specChars (n / 10)).length * 10)
          = a * 10 ^ (specChars (n / 10)).length * 10 := by ring
      rw [hrw]
      omega

theorem specChars_inj {n m : Nat} (h : specChars n = specChars m) : n = m := by
  have h1 := decode_specChars n 0
  have h2 := decode_specChars m 0
  rw [h] at h1
  omega

theorem specChars_digit_range (n : Nat) :
    ∀ c ∈ specChars n, 48 ≤ c.toNat ∧ c.toNat ≤ 57 := by
  induction n using Nat.strong_induction_on with
  | _ n ih =>
    intro c hc
    by_cases h10 : n < 10
    · rw [specChars_of_lt h10, List.mem_singleton] at hc
      subst hc
      rw [digitChar_toNat h10]
      omega
    · rw [specChars_of_ge h10, List.mem_append, List.mem_singleton] at hc
      rcases hc with hc | hc
      · exact ih (n / 10) (Nat.div_lt_self (by omega) (by omega)) c hc
      · subst hc
        rw [digitChar_toNat (Nat.mod_lt _ (by omega))]
        omega

theorem dash_not_mem_natChars (n : Nat) : ¬ ('-' : Char) ∈ natChars n := by
  rw [natChars_eq_specChars]
  intro h
  have := specChars_digit_range n _ h
  simp at this

theorem natChars_inj {n m : Nat} (h : natChars n = natChars m) : n = m := by
  rw [natChars_eq_specChars, natChars_eq_specChars] at h
  exact specChars_inj h

theorem decodeFrom_replicate_zero (k : Nat) (l : List Char) :
    decodeFrom 0 (List.replicate k '0' ++ l) = decodeFrom 0 l := by
  induction k with
  | zero => rfl
  | succ k ih =>
    rw [List.replicate_succ, List.cons_append]
    unfold decodeFrom at *
    simpa using ih

theorem pad5_decode (n : Nat) : decodeFrom 0 (pad5 (natChars n)) = n := by
  unfold pad5
  rw [decodeFrom_replicate_zero, natChars_eq_specChars]
  have := decode_specChars n 0
  omega

theorem uidString_inj {n m : Nat} (h : uidString n = uidString m) : n = m := by
  have hd : 'U' :: 'I' :: 'D' :: '-' :: pad5 (natChars n)
      = 'U' :: 'I' :: 'D' :: '-' :: pad5 (natChars m) := congrArg String.data h
  have hp : pad5 (natChars n) = pad5 (natChars m) := by
    simpa using hd
  have h1 := pad5_decode n
  have h2 := pad5_decode m
  rw [hp] at h1
  omega

/-- Splitting at the first occurrence of a separator is unambiguous. -/
theorem append_cons_sep_inj {x : Char} :
    ∀ (a1 : List Char) {b1 : List Char} (a2 : List Char) {b2 : List Char},
      ¬ x ∈ a1 → ¬ x ∈ a2 → a1 ++ x :: b1 = a2 ++ x :: b2 → a1 = a2 ∧ b1 = b2 := by
  intro a1
  induction a1 with
  | nil =>
    intro b1 a2 b2 _ ha2 h
    cases a2 with
    | nil => simpa using h
    | cons c t =>
      simp only [List.nil_append, List.cons_append, List.cons.injEq] at h
      exact absurd (h.1 ▸ List.mem_cons_self c t) ha2
  | cons c t ih =>
    intro b1 a2 b2 ha1 ha2 h
    cases a2 with
    | nil =>
      simp only [List.nil_append, List.cons_append, List.cons.injEq] at h
      exact absurd (h.1 ▸ List.mem_cons_self c t) (h.1 ▸ ha1)
    | cons c2 t2 =>
      simp only [List.cons_append, List.cons.injEq] at h
      obtain ⟨hc, ht⟩ := h
      have ht1 : ¬ x ∈ t := fun hx => ha1 (List.mem_cons_of_mem c hx)
      have ht2 : ¬ x ∈ t2 := fun hx => ha2 (List.mem_cons_of_mem c2 hx)
      obtain ⟨he1, he2⟩ := ih t2 ht1 ht2 ht
      exact ⟨by rw [hc, he1], he2⟩

theorem mkStudentId_counter_inj {p q : String} {n m : Nat}
    (h : mkStudentId p n = mkStudentId q m) : n = m := by
  have hd : (p.map Char.toUpper).data ++ '-' :: natChars n
      = (q.map Char.toUpper).data ++ '-' :: natChars m := by
    have := congrArg String.data h
    simpa [mkStudentId, natStr] using this
  have hrev : (natChars n).reverse ++ '-' :: (p.map Char.toUpper).data.reverse
      = (natChars m).reverse ++ '-' :: (q.map Char.toUpper).data.reverse := by
    have := congrArg List.reverse hd
    simpa using this
  have hn : ¬ ('-' : Char) ∈ (natChars n).reverse := by
    simpa using dash_not_mem_natChars n
  have hm : ¬ ('-' : Char) ∈ (natChars m).reverse := by
    simpa using dash_not_mem_natChars m
  have := (append_cons_sep_inj _ _ hn hm hrev).1
  exact natChars_inj (List.reverse_injective this)

/-! ## Distinctness of generated student ids -/

/-- Ids of a student block: every id is a school prefix with a counter
in [c1, c2), and the ids are pairwise distinct. -/
def IdsFrom (c1 c2 : Nat) (l : List Student) : Prop :=
  (∀ st ∈ l, ∃ p n, st.id = mkStudentId p n ∧ c1 ≤ n ∧ n < c2) ∧
  l.Pairwise (fun a b => a.id ≠ b.id)

theorem IdsFrom.nil (c : Nat) : IdsFrom c c [] := ⟨by simp, List.Pairwise.nil⟩

theorem IdsFrom.append {c1 c2 c3 : Nat} {l1 l2 : List Student}
    (h1 : IdsFrom c1 c2 l1) (h2 : IdsFrom c2 c3 l2)
    (h12 : c1 ≤ c2) (h23 : c2 ≤ c3) : IdsFrom c1 c3 (l1 ++ l2) := by
  constructor
  · intro st hst
    rcases List.mem_append.mp hst with h | h
    · obtain ⟨p, n, hid, hb1, hb2⟩ := h1.1 st h
      exact ⟨p, n, hid, hb1, by omega⟩
    · obtain ⟨p, n, hid, hb1, hb2⟩ := h2.1 st h
      exact ⟨p, n, hid, by omega, hb2⟩
  · rw [List.pairwise_append]
    refine ⟨h1.2, h2.2, ?_⟩
    intro a ha b hb heq
    obtain ⟨p, n, hid1, hn1, hn2⟩ := h1.1 a ha
    obtain ⟨q, m, hid2, hm1, hm2⟩ := h2.1 b hb
    have hnm : n = m := mkStudentId_counter_inj (hid1 ▸ hid2 ▸ heq)
    omega

theorem cohortLoop_ids (schoolId yg : String) (pool : NamePool) :
    ∀ (k c : Nat) (used : List String) (s : Nat),
      IdsFrom c (c + k) (cohortLoop schoolId yg pool k c used s).1 ∧
      (cohortLoop schoolId yg pool k c used s).2.1 = c + k := by
  intro k
  induction k with
  | zero =>
    intro c used s
    exact ⟨IdsFrom.nil c, rfl⟩
  | succ k ih =>
    intro c used s
    rcases hdn : drawName pool used s 49 with ⟨name, s2⟩
    rcases hrc : cohortLoop schoolId yg pool k (c + 1) (name :: used) s2 with
      ⟨rest, c2, used2, s3⟩
    have heq : cohortLoop schoolId yg pool (k + 1) c used s
        = (⟨mkStudentId schoolId c, schoolId, yg, name⟩ :: rest, c2, used2, s3) := by
      simp only [cohortLoop, hdn, hrc]
    rw [heq]
    have ihk := ih (c + 1) (name :: used) s2
    rw [hrc] at ihk
    have hsing : IdsFrom c (c + 1) [⟨mkStudentId schoolId c, schoolId, yg, name⟩] := by
      refine ⟨?_, by simp⟩
      intro st hst
      rw [List.mem_singleton] at hst
      exact ⟨schoolId, c, by rw [hst], le_refl c, by omega⟩
    constructor
    · have happ := IdsFrom.append hsing ihk.1 (by omega) (by omega)
      have hb : c + 1 + k = c + (k + 1) := by omega
      rw [hb] at happ
      simpa using happ
    · have h2 : c2 = c + 1 + k := ihk.2
      simp only []
      omega

theorem ygLoop_ids (schoolId : String) (pool : NamePool) :
    ∀ (ygs : List String) (c : Nat) (used : List String) (s : Nat),
      IdsFrom c ((ygLoop schoolId pool ygs c used s).2.1)
        (ygLoop schoolId pool ygs c used s).1 ∧
      c ≤ (ygLoop schoolId pool ygs c used s).2.1 := by
  intro ygs
  induction ygs with
  | nil => intro c used s; exact ⟨IdsFrom.nil c, le_refl c⟩
  | cons yg rest ih =>
    intro c used s
    rcases hri : randInt s 6 with ⟨d, s1⟩
    rcases hcl : cohortLoop schoolId yg pool (8 + d) c used s1 with ⟨sts, c2, used2, s2⟩
    rcases hyl : ygLoop schoolId pool rest c2 used2 s2 with ⟨more, c3, used3, s3⟩
    have heq : ygLoop schoolId pool (yg :: rest) c used s = (sts ++ more, c3, used3, s3) := by
      rw [ygLoop.eq_2, hri]
      try dsimp only
      rw [hcl]
      try dsimp only
      rw [hyl]
    rw [heq]
    have hc := cohortLoop_ids schoolId yg pool (8 + d) c used s1
    rw [hcl] at hc
    have hr := ih c2 used2 s2
    rw [hyl] at hr
    have hc2 : c2 = c + (8 + d) := hc.2
    have hr1 : IdsFrom c2 c3 more := hr.1
    have hr2 : c2 ≤ c3 := hr.2
    constructor
    · exact IdsFrom.append hc.1 (hc2 ▸ hr1) (by omega) (hc2 ▸ hr2)
    · show c ≤ c3
      omega

theorem schoolLoop_ids :
    ∀ (scs : List School) (c : Nat) (used : List String) (s : Nat),
      IdsFrom c ((schoolLoop scs c used s).2.1) (schoolLoop scs c used s).1 ∧
      c ≤ (schoolLoop scs c used s).2.1 := by
  intro scs
  induction scs with
  | nil => intro c used s; exact ⟨IdsFrom.nil c, le_refl c⟩
  | cons sc rest ih =>
    intro c used s
    rcases hyl : ygLoop sc.id (ttpNamePools (schoolToTtp sc.id)) yearGroups c used s with
      ⟨sts, c2, used2, s2⟩
    rcases hsl : schoolLoop rest c2 used2 s2 with ⟨more, c3, used3, s3⟩
    have heq : schoolLoop (sc :: rest) c used s = (sts ++ more, c3, used3, s3) := by
      rw [schoolLoop.eq_2]
      try dsimp only
      rw [hyl]
      try dsimp only
      rw [hsl]
    rw [heq]
    have hy := ygLoop_ids sc.id (ttpNamePools (schoolToTtp sc.id)) yearGroups c used s
    rw [hyl] at hy
    have hr := ih c2 used2 s2
    rw [hsl] at hr
    have hy1 : IdsFrom c c2 sts := hy.1
    have hy2 : c ≤ c2 := hy.2
    have hr1 : IdsFrom c2 c3 more := hr.1
    have hr2 : c2 ≤ c3 := hr.2
    constructor
    · exact IdsFrom.append hy1 hr1 hy2 hr2
    · show c ≤ c3
      omega

theorem buildStudents_nodup_ids (s : Nat) :
    ((buildStudents s).1.map (fun st => st.id)).Nodup := by
  rcases hsl : schoolLoop schools 1000 [] s with ⟨sts, c2, used2, s2⟩
  have heq : (buildStudents s).1 = sts := by
    unfold buildStudents
    rw [hsl]
  rw [heq]
  have h := schoolLoop_ids schools 1000 [] s
  rw [hsl] at h
  have h12 : IdsFrom 1000 c2 sts := h.1
  simpa [List.Nodup, List.pairwise_map] using h12.2


/-! ## Claim C5 -/

theorem rewriteMap_studentId_col (students : List Student) :
    (buildRewriteMap students).map (fun e => e.studentId)
      = students.map (fun st => st.id) := by
  unfold buildRewriteMap
  rw [List.map_map]
  calc students.enum.map
        ((fun e : RewriteEntry => e.studentId) ∘
          fun p : Nat × Student => (⟨p.2.schoolId, p.2.id, uidString (p.1 + 1)⟩ : RewriteEntry))
      = (students.enum.map Prod.snd).map (fun st => st.id) := by
        rw [List.map_map]
        rfl
    _ = students.map (fun st => st.id) := by rw [List.enum_map_snd]

theorem rewriteMap_uid_col (students : List Student) :
    (buildRewriteMap students).map (fun e => e.uid)
      = (List.range students.length).map (fun i => uidString (i + 1)) := by
  unfold buildRewriteMap
  rw [List.map_map]
  calc students.enum.map
        ((fun e : RewriteEntry => e.uid) ∘
          fun p : Nat × Student => (⟨p.2.schoolId, p.2.id, uidString (p.1 + 1)⟩ : RewriteEntry))
      = (students.enum.map Prod.fst).map (fun i => uidString (i + 1)) := by
        rw [List.map_map]
        rfl
    _ = (List.range students.length).map (fun i => uidString (i + 1)) := by
        rw [List.enum_map_fst]

/-- C5: for every generated student list the rewrite map carries the
student ids positionally (so every student id gets exactly one entry),
the uid at position i is uidString (i + 1), i.e. the sequential
zero-padded UID-00001, UID-00002, ..., and both the uid column and the
student id column are duplicate free, making the assignment a
bijection between student ids and UIDs. -/
theorem c5_rewrite_map_bijection (s : Nat) :
    (buildRewriteMap (buildStudents s).1).map (fun e => e.studentId)
      = (buildStudents s).1.map (fun st => st.id) ∧
    (buildRewriteMap (buildStudents s).1).map (fun e => e.uid)
      = (List.range (buildStudents s).1.length).map (fun i => uidString (i + 1)) ∧
    ((buildRewriteMap (buildStudents s).1).map (fun e => e.uid)).Nodup ∧
    ((buildRewriteMap (buildStudents s).1).map (fun e => e.studentId)).Nodup ∧
    uidString 1 = "UID-00001" ∧ uidString 2 = "UID-00002" := by
  refine ⟨rewriteMap_studentId_col _, rewriteMap_uid_col _, ?_, ?_, by decide, by decide⟩
  · rw [rewriteMap_uid_col]
    have hinj : Function.Injective (fun i : Nat => uidString (i + 1)) := by
      intro a b h
      have := uidString_inj h
      omega
    exact (List.nodup_range _).map hinj
  · rw [rewriteMap_studentId_col]
    exact buildStudents_nodup_ids s


/-! ## Spread with fresh keys is append -/

theorem objSet_of_fresh (r : Obj) (k : String) (v : JVal)
    (h : ¬ k ∈ r.map Prod.fst) : objSet r k v = r ++ [(k, v)] := by
  unfold objSet
  have hc : ((r.map Prod.fst).contains k) = false := by
    rcases hb : (r.map Prod.fst).contains k with _ | _
    · rfl
    · exact absurd (List.elem_iff.mp hb) h
  rw [hc]
  simp

theorem objMerge_of_fresh :
    ∀ (l r : Obj), (l.map Prod.fst).Nodup →
      (∀ k ∈ l.map Prod.fst, ¬ k ∈ r.map Prod.fst) → objMerge r l = r ++ l := by
  intro l
  induction l with
  | nil => intro r _ _; simp [objMerge]
  | cons p t ih =>
    intro r hnd hfresh
    obtain ⟨k, v⟩ := p
    have hk : ¬ k ∈ r.map Prod.fst := hfresh k (by simp)
    have step : objMerge r ((k, v) :: t) = objMerge (r ++ [(k, v)]) t := by
      simp [objMerge, objSet_of_fresh r k v hk]
    rw [step]
    have hnd2 : (t.map Prod.fst).Nodup := by
      simp only [List.map_cons, List.nodup_cons] at hnd
      exact hnd.2
    have hkt : ¬ k ∈ t.map Prod.fst := by
      simp only [List.map_cons, List.nodup_cons] at hnd
      exact hnd.1
    have hfresh2 : ∀ k2 ∈ t.map Prod.fst, ¬ k2 ∈ (r ++ [(k, v)]).map Prod.fst := by
      intro k2 hk2
      simp only [List.map_append, List.mem_append, List.map_cons, List.map_nil,
        List.mem_singleton, not_or]
      exact ⟨hfresh k2 (by simp [hk2]), fun he => hkt (he ▸ hk2)⟩
    rw [ih (r ++ [(k, v)]) hnd2 hfresh2]
    simp

/-! ## Characterisation of the generated item blocks -/

theorem cons_block_eq (surveyId : String) (idx n score : Nat) (scores : List Nat)
    (rest : List (String × JVal))
    (hpairs : rest = (List.range n).map
      (fun j => (itemKey surveyId (idx + 1 + j), JVal.num (scores.getD j 0)))) :
    (itemKey surveyId idx, JVal.num score) :: rest
      = (List.range (n + 1)).map
          (fun j => (itemKey surveyId (idx + j), JVal.num ((score :: scores).getD j 0))) := by
  rw [List.range_succ_eq_map, List.map_cons, List.map_map]
  congr 1
  rw [hpairs]
  apply List.map_congr_left
  intro j hj
  have h : idx + 1 + j = idx + (j + 1) := by omega
  simp only [Function.comp]
  rw [← h]
  simp [List.getD_cons_succ]

theorem genItems_spec (surveyId : String) (elev : Bool) :
    ∀ (n idx s : Nat), ∃ scores : List Nat,
      scores.length = n ∧ (∀ x ∈ scores, x ≤ 3) ∧
      (genItems surveyId elev idx n s).1
        = (List.range n).map (fun j => (itemKey surveyId (idx + j), JVal.num (scores.getD j 0))) ∧
      (genItems surveyId elev idx n s).2.1 = scores.sum := by
  intro n
  induction n with
  | zero =>
    intro idx s
    exact ⟨[], rfl, by simp, by simp [genItems], by simp [genItems]⟩
  | succ n ih =>
    intro idx s
    rcases hr1 : randInt s 4 with ⟨normal, s1⟩
    have hnormal : normal ≤ 3 := by
      have h1 : (randInt s 4).1 = normal := by rw [hr1]
      simp only [randInt] at h1
      have hlt : lcg s < 4294967296 := Nat.mod_lt _ (by norm_num)
      omega
    cases elev with
    | false =>
      obtain ⟨scores, hlen, hbound, hpairs, htot⟩ := ih (idx + 1) s1
      rcases hrec : genItems surveyId false (idx + 1) n s1 with ⟨rest, tot, s3⟩
      rw [hrec] at hpairs htot
      have hpairs2 : rest = (List.range n).map
          (fun j => (itemKey surveyId (idx + 1 + j), JVal.num (scores.getD j 0))) := hpairs
      have htot2 : tot = scores.sum := htot
      have heq : genItems surveyId false idx (n + 1) s
          = ((itemKey surveyId idx, JVal.num normal) :: rest, normal + tot, s3) := by
        rw [genItems.eq_2, hr1]
        try dsimp only
        rw [cond_false]
        try dsimp only
        rw [hrec]
      refine ⟨normal :: scores, by simp [hlen], ?_, ?_, ?_⟩
      · intro x hx
        rcases List.mem_cons.mp hx with h | h
        · omega
        · exact hbound x h
      · rw [heq]
        exact cons_block_eq surveyId idx n normal scores rest hpairs2
      · rw [heq]
        simp [htot2]
    | true =>
      rcases hr2 : randInt s1 2 with ⟨d, s2⟩
      obtain ⟨scores, hlen, hbound, hpairs, htot⟩ := ih (idx + 1) s2
      rcases hrec : genItems surveyId true (idx + 1) n s2 with ⟨rest, tot, s3⟩
      rw [hrec] at hpairs htot
      have hpairs2 : rest = (List.range n).map
          (fun j => (itemKey surveyId (idx + 1 + j), JVal.num (scores.getD j 0))) := hpairs
      have htot2 : tot = scores.sum := htot
      have heq : genItems surveyId true idx (n + 1) s
          = ((itemKey surveyId idx, JVal.num (min 3 (2 + d))) :: rest,
             min 3 (2 + d) + tot, s3) := by
        rw [genItems.eq_2, hr1]
        try dsimp only
        rw [cond_true]
        try dsimp only
        rw [hr2]
        try dsimp only
        rw [hrec]
      refine ⟨min 3 (2 + d) :: scores, by simp [hlen], ?_, ?_, ?_⟩
      · intro x hx
        rcases List.mem_cons.mp hx with h | h
        · omega
        · exact hbound x h
      · rw [heq]
        exact cons_block_eq surveyId idx n (min 3 (2 + d)) scores rest hpairs2
      · rw [heq]
        simp [htot2]

theorem genItems_spec0 (surveyId : String) (elev : Bool) (n s : Nat) :
    ∃ scores : List Nat,
      scores.length = n ∧ (∀ x ∈ scores, x ≤ 3) ∧
      (genItems surveyId elev 0 n s).1
        = (List.range n).map (fun j => (itemKey surveyId j, JVal.num (scores.getD j 0))) ∧
      (genItems surveyId elev 0 n s).2.1 = scores.sum := by
  obtain ⟨scores, hlen, hbound, hpairs, htot⟩ := genItems_spec surveyId elev n 0 s
  refine ⟨scores, hlen, hbound, ?_, htot⟩
  rw [hpairs]
  apply List.map_congr_left
  intro j hj
  have h : 0 + j = j := by omega
  rw [h]


/-- The response object emitted for one (student, wave) pair: the four
base fields, then the phq9 block, then the gad7 block, with each
survey total the sum of its item scores which all lie in [0, 3]. -/
theorem waveResp_spec (st : Student) (w : String) (elev : Bool) (s : Nat) :
    ∃ scores9 scores7 : List Nat,
      scores9.length = 9 ∧ scores7.length = 7 ∧
      (∀ x ∈ scores9, x ≤ 3) ∧ (∀ x ∈ scores7, x ≤ 3) ∧
      (addSurveyBlocks elev surveys (respBase st w) s).1
        = respBase st w
          ++ (("phq9-total", JVal.num scores9.sum)
              :: (List.range 9).map (fun j => (itemKey "phq9" j, JVal.num (scores9.getD j 0))))
          ++ (("gad7-total", JVal.num scores7.sum)
              :: (List.range 7).map (fun j => (itemKey "gad7" j, JVal.num (scores7.getD j 0)))) := by
  obtain ⟨scores9, hl9, hb9, hp9, ht9⟩ := genItems_spec0 "phq9" elev 9 s
  rcases h9 : genItems "phq9" elev 0 9 s with ⟨items9, tot9, s2⟩
  rw [h9] at hp9 ht9
  have hp9b : items9 = (List.range 9).map
      (fun j => (itemKey "phq9" j, JVal.num (scores9.getD j 0))) := hp9
  have ht9b : tot9 = scores9.sum := ht9
  obtain ⟨scores7, hl7, hb7, hp7, ht7⟩ := genItems_spec0 "gad7" elev 7 s2
  rcases h7 : genItems "gad7" elev 0 7 s2 with ⟨items7, tot7, s3⟩
  rw [h7] at hp7 ht7
  have hp7b : items7 = (List.range 7).map
      (fun j => (itemKey "gad7" j, JVal.num (scores7.getD j 0))) := hp7
  have ht7b : tot7 = scores7.sum := ht7
  have heq : (addSurveyBlocks elev surveys (respBase st w) s).1
      = objMerge (objMerge (respBase st w) (("phq9-total", JVal.num tot9) :: items9))
          (("gad7-total", JVal.num tot7) :: items7) := by
    rw [show surveys = [⟨"phq9", "PHQ-9", 9⟩, ⟨"gad7", "GAD-7", 7⟩] from rfl]
    rw [addSurveyBlocks.eq_2]
    dsimp only
    rw [h9]
    dsimp only
    rw [addSurveyBlocks.eq_2]
    dsimp only
    rw [h7]
    dsimp only
    rw [addSurveyBlocks.eq_1]
    try dsimp only
    rw [show ("phq9" : String) ++ "-total" = "phq9-total" from rfl]
    rw [show ("gad7" : String) ++ "-total" = "gad7-total" from rfl]
  have hkeys9 : ((("phq9-total", JVal.num tot9) :: items9).map Prod.fst)
      = "phq9-total" :: (List.range 9).map (fun j => itemKey "phq9" j) := by
    rw [hp9b]
    simp [List.map_map]
  have hkeys7 : ((("gad7-total", JVal.num tot7) :: items7).map Prod.fst)
      = "gad7-total" :: (List.range 7).map (fun j => itemKey "gad7" j) := by
    rw [hp7b]
    simp [List.map_map]
  have hbasekeys : (respBase st w).map Prod.fst
      = ["studentId", "schoolId", "yearGroup", "wave"] := rfl
  have hm1 : objMerge (respBase st w) (("phq9-total", JVal.num tot9) :: items9)
      = respBase st w ++ (("phq9-total", JVal.num tot9) :: items9) := by
    apply objMerge_of_fresh
    · rw [hkeys9]
      decide
    · rw [hkeys9, hbasekeys]
      decide
  have hm2 : objMerge (respBase st w ++ (("phq9-total", JVal.num tot9) :: items9))
        (("gad7-total", JVal.num tot7) :: items7)
      = respBase st w ++ (("phq9-total", JVal.num tot9) :: items9)
        ++ (("gad7-total", JVal.num tot7) :: items7) := by
    apply objMerge_of_fresh
    · rw [hkeys7]
      decide
    · rw [hkeys7]
      intro k hk
      rw [List.map_append, hbasekeys, hkeys9]
      revert k hk
      decide
  refine ⟨scores9, scores7, hl9, hl7, hb9, hb7, ?_⟩
  rw [heq, hm1, hm2, hp9b, ht9b, hp7b, ht7b]


theorem wavesLoop_mem (st : Student) :
    ∀ (ws : List String) (high : Bool) (s : Nat) (resp : Obj),
      resp ∈ (wavesLoop st ws high s).1 →
      ∃ w elev s2, resp = (addSurveyBlocks elev surveys (respBase st w) s2).1 := by
  intro ws
  induction ws with
  | nil =>
    intro high s resp h
    simp [wavesLoop] at h
  | cons w rest ih =>
    intro high s resp h
    rcases hsk : randLtTwentieth s with ⟨skip, s1⟩
    cases skip with
    | true =>
      have heq : wavesLoop st (w :: rest) high s = wavesLoop st rest high s1 := by
        rw [wavesLoop.eq_2, hsk]
        try dsimp only
        rw [cond_true]
      rw [heq] at h
      exact ih high s1 resp h
    | false =>
      rcases helev : cond high (true, s1) (randLtTenth s1) with ⟨elev, s2⟩
      rcases hasb : addSurveyBlocks elev surveys (respBase st w) s2 with ⟨resp0, s3⟩
      rcases hupd : cond high
          (cond (randLtHalf s3).1 false high, (randLtHalf s3).2)
          (cond elev
            (cond (randLtHalf s3).1 true high, (randLtHalf s3).2)
            (high, s3)) with ⟨high2, s4⟩
      rcases hwl : wavesLoop st rest high2 s4 with ⟨restL, s5⟩
      have heq : wavesLoop st (w :: rest) high s = (resp0 :: restL, s5) := by
        rw [wavesLoop.eq_2, hsk]
        try dsimp only
        rw [cond_false]
        try dsimp only
        rw [helev]
        try dsimp only
        rw [hasb]
        try dsimp only
        rw [hupd]
        try dsimp only
        rw [hwl]
      rw [heq] at h
      rcases List.mem_cons.mp h with h | h
      · refine ⟨w, elev, s2, ?_⟩
        rw [h, hasb]
      · exact ih high2 s4 resp (by rw [hwl]; exact h)

theorem buildSurveyResponses_mem :
    ∀ (students : List Student) (s : Nat) (resp : Obj),
      resp ∈ (buildSurveyResponses students s).1 →
      ∃ st w elev s2, resp = (addSurveyBlocks elev surveys (respBase st w) s2).1 := by
  intro students
  induction students with
  | nil =>
    intro s resp h
    simp [buildSurveyResponses] at h
  | cons st rest ih =>
    intro s resp h
    rcases hh : randLtTenth s with ⟨high0, s1⟩
    rcases hwl : wavesLoop st waves high0 s1 with ⟨rs, s2⟩
    rcases hbr : buildSurveyResponses rest s2 with ⟨more, s3⟩
    have heq : buildSurveyResponses (st :: rest) s = (rs ++ more, s3) := by
      rw [buildSurveyResponses.eq_2, hh]
      try dsimp only
      rw [hwl]
      try dsimp only
      rw [hbr]
    rw [heq] at h
    rcases List.mem_append.mp h with h | h
    · obtain ⟨w, elev, s4, hr⟩ := wavesLoop_mem st waves high0 s1 resp (by rw [hwl]; exact h)
      exact ⟨st, w, elev, s4, hr⟩
    · obtain ⟨st2, w, elev, s4, hr⟩ := ih s2 resp (by rw [hbr]; exact h)
      exact ⟨st2, w, elev, s4, hr⟩


/-! ## Lookup in the emitted response objects -/

theorem lookup_append_left (l1 l2 : Obj) (k : String) (v : JVal) :
    List.lookup k l1 = some v → List.lookup k (l1 ++ l2) = some v := by
  induction l1 with
  | nil => intro h; simp at h
  | cons p t ih =>
    intro h
    obtain ⟨k1, v1⟩ := p
    by_cases hb : k = k1
    · subst hb
      simp only [List.lookup_cons, beq_self_eq_true] at h
      simpa [List.cons_append, List.lookup_cons] using h
    · simp only [List.lookup_cons, beq_false_of_ne hb] at h
      simp only [List.cons_append, List.lookup_cons, beq_false_of_ne hb]
      exact ih h

theorem lookup_range_map :
    ∀ (n : Nat) (key : Nat → String) (val : Nat → JVal) (i : Nat), i < n →
      (∀ a, a < n → ∀ b, b < n → key a = key b → a = b) →
      List.lookup (key i) ((List.range n).map (fun j => (key j, val j))) = some (val i) := by
  intro n
  induction n with
  | zero => intro key val i hi _; omega
  | succ n ih =>
    intro key val i hi hinj
    rw [List.range_succ_eq_map, List.map_cons, List.map_map]
    cases i with
    | zero => simp [List.lookup_cons]
    | succ j =>
      have hne : key (j + 1) ≠ key 0 := by
        intro h
        have h2 := hinj (j + 1) (by omega) 0 (by omega) h
        omega
      simp only [List.lookup_cons, beq_false_of_ne hne]
      have h2 := ih (fun a => key (a + 1)) (fun a => val (a + 1)) j (by omega)
        (fun a ha b hb hk => by
          have h3 := hinj (a + 1) (by omega) (b + 1) (by omega) hk
          omega)
      simpa [Function.comp, Nat.succ_eq_add_one] using h2

/-- The shape every emitted response takes, by waveResp_spec: base fields,
then the phq9 block, then the gad7 block. -/
def fullResp (st : Student) (w : String) (scores9 scores7 : List Nat) : Obj :=
  respBase st w
    ++ (("phq9-total", JVal.num scores9.sum)
        :: (List.range 9).map (fun j => (itemKey "phq9" j, JVal.num (scores9.getD j 0))))
    ++ (("gad7-total", JVal.num scores7.sum)
        :: (List.range 7).map (fun j => (itemKey "gad7" j, JVal.num (scores7.getD j 0))))

theorem respBase_keys (st : Student) (w : String) :
    (respBase st w).map Prod.fst = ["studentId", "schoolId", "yearGroup", "wave"] := rfl

theorem phqBlock_keys (scores9 : List Nat) :
    (((("phq9-total" : String), JVal.num scores9.sum)
      :: (List.range 9).map (fun j => (itemKey "phq9" j, JVal.num (scores9.getD j 0)))).map
      Prod.fst)
    = "phq9-total" :: (List.range 9).map (fun j => itemKey "phq9" j) := by
  simp [List.map_map, Function.comp]

theorem fullResp_keys (st : Student) (w : String) (scores9 scores7 : List Nat) :
    (fullResp st w scores9 scores7).map Prod.fst
      = (["studentId", "schoolId", "yearGroup", "wave"]
          ++ "phq9-total" :: (List.range 9).map (fun j => itemKey "phq9" j))
        ++ "gad7-total" :: (List.range 7).map (fun j => itemKey "gad7" j) := by
  unfold fullResp
  simp only [List.map_append, List.map_cons, List.map_map, respBase_keys]
  rfl

theorem fullResp_lookup_phq9_total (st : Student) (w : String) (scores9 scores7 : List Nat) :
    List.lookup "phq9-total" (fullResp st w scores9 scores7)
      = some (JVal.num scores9.sum) := by
  have hnb : ¬ ("phq9-total" : String) ∈ ((respBase st w).map Prod.fst) := by
    rw [respBase_keys]
    decide
  unfold fullResp
  rw [List.append_assoc]
  rw [lookup_append_right _ _ _ hnb]
  simp [List.lookup_cons]

theorem fullResp_lookup_phq9_item (st : Student) (w : String) (scores9 scores7 : List Nat)
    (i : Nat) (hi : i < 9) :
    List.lookup (itemKey "phq9" i) (fullResp st w scores9 scores7)
      = some (JVal.num (scores9.getD i 0)) := by
  have hnb : ∀ j, j < 9 → ¬ itemKey "phq9" j ∈ ((respBase st w).map Prod.fst) := by
    rw [respBase_keys]
    decide
  have hnt : ∀ j, j < 9 → itemKey "phq9" j ≠ "phq9-total" := by decide
  have hinj : ∀ a, a < 9 → ∀ b, b < 9 → itemKey "phq9" a = itemKey "phq9" b → a = b := by
    decide
  unfold fullResp
  rw [List.append_assoc]
  rw [lookup_append_right _ _ _ (hnb i hi)]
  rw [List.cons_append]
  simp only [List.lookup_cons, beq_false_of_ne (hnt i hi)]
  exact lookup_append_left _ _ _ _ (lookup_range_map 9 (fun j => itemKey "phq9" j)
    (fun j => JVal.num (scores9.getD j 0)) i hi hinj)

theorem fullResp_lookup_gad7_total (st : Student) (w : String) (scores9 scores7 : List Nat) :
    List.lookup "gad7-total" (fullResp st w scores9 scores7)
      = some (JVal.num scores7.sum) := by
  have hnm : ¬ ("gad7-total" : String) ∈
      ((respBase st w
        ++ (("phq9-total", JVal.num scores9.sum)
            :: (List.range 9).map (fun j => (itemKey "phq9" j, JVal.num (scores9.getD j 0))))).map
        Prod.fst) := by
    rw [List.map_append, respBase_keys, phqBlock_keys]
    decide
  unfold fullResp
  rw [lookup_append_right _ _ _ hnm]
  simp [List.lookup_cons]

theorem fullResp_lookup_gad7_item (st : Student) (w : String) (scores9 scores7 : List Nat)
    (i : Nat) (hi : i < 7) :
    List.lookup (itemKey "gad7" i) (fullResp st w scores9 scores7)
      = some (JVal.num (scores7.getD i 0)) := by
  have hnm : ∀ j, j < 7 → ¬ itemKey "gad7" j ∈
      ((respBase st w
        ++ (("phq9-total", JVal.num scores9.sum)
            :: (List.range 9).map
                (fun j2 => (itemKey "phq9" j2, JVal.num (scores9.getD j2 0))))).map
        Prod.fst) := by
    rw [List.map_append, respBase_keys, phqBlock_keys]
    decide
  have hnt : ∀ j, j < 7 → itemKey "gad7" j ≠ "gad7-total" := by decide
  have hinj : ∀ a, a < 7 → ∀ b, b < 7 → itemKey "gad7" a = itemKey "gad7" b → a = b := by
    decide
  unfold fullResp
  rw [lookup_append_right _ _ _ (hnm i hi)]
  simp only [List.lookup_cons, beq_false_of_ne (hnt i hi)]
  exact lookup_range_map 7 (fun j => itemKey "gad7" j)
    (fun j => JVal.num (scores7.getD j 0)) i hi hinj

/-- C6: for every response emitted by the response simulator and every
survey in the catalog, there is a list of per-item scores, all integers in
[0, 3], such that the survey's total field holds their sum and the i-th
item field holds the i-th score. -/
theorem c6_total_consistency (students : List Student) (s0 : Nat) (resp : Obj)
    (hmem : resp ∈ (buildSurveyResponses students s0).1)
    (sv : Survey) (hsv : sv ∈ surveys) :
    ∃ scores : List Nat,
      scores.length = sv.items ∧
      (∀ x ∈ scores, x ≤ 3) ∧
      List.lookup (sv.id ++ "-total") resp = some (JVal.num scores.sum) ∧
      (∀ i, i < sv.items →
        List.lookup (itemKey sv.id i) resp = some (JVal.num (scores.getD i 0))) := by
  obtain ⟨st, w, elev, s2, hr⟩ := buildSurveyResponses_mem students s0 resp hmem
  obtain ⟨scores9, scores7, hl9, hl7, hb9, hb7, hresp⟩ := waveResp_spec st w elev s2
  have hfull : resp = fullResp st w scores9 scores7 := by
    rw [hr, hresp]
    try rfl
  subst hfull
  simp only [surveys, List.mem_cons, List.not_mem_nil, or_false] at hsv
  rcases hsv with h | h
  · subst h
    refine ⟨scores9, hl9, hb9, ?_, ?_⟩
    · exact fullResp_lookup_phq9_total st w scores9 scores7
    · intro i hi
      exact fullResp_lookup_phq9_item st w scores9 scores7 i hi
  · subst h
    refine ⟨scores7, hl7, hb7, ?_, ?_⟩
    · exact fullResp_lookup_gad7_total st w scores9 scores7
    · intro i hi
      exact fullResp_lookup_gad7_item st w scores9 scores7 i hi

/-- A concrete student and the first response it generates from state 0,
used to instantiate the response-shape claims. -/
def sampleStudent : Student := ⟨"OXFORD-HIGH-1000", "oxford-high", "Year 9", "Alice Anderson"⟩

def sampleResp : Obj := ((buildSurveyResponses [sampleStudent] 0).1).getD 0 []

/-- Witness for C6 at a concrete student, seed state 0 and the PHQ-9 survey. -/
theorem c6_total_consistency_witness :
    sampleResp ∈ (buildSurveyResponses [sampleStudent] 0).1 ∧
      (⟨"phq9", "PHQ-9", 9⟩ : Survey) ∈ surveys ∧
      List.lookup ((⟨"phq9", "PHQ-9", 9⟩ : Survey).id ++ "-total") sampleResp ≠ none := by
  have hmem : sampleResp ∈ (buildSurveyResponses [sampleStudent] 0).1 := by decide
  have hsv : (⟨"phq9", "PHQ-9", 9⟩ : Survey) ∈ surveys := by
    rw [show surveys = [⟨"phq9", "PHQ-9", 9⟩, ⟨"gad7", "GAD-7", 7⟩] from rfl]
    exact List.mem_cons_self _ _
  obtain ⟨scores, hlen, hb, ht, hit⟩ :=
    c6_total_consistency [sampleStudent] 0 sampleResp hmem ⟨"phq9", "PHQ-9", 9⟩ hsv
  refine ⟨hmem, hsv, ?_⟩
  rw [ht]
  simp

/-- C10: for every response emitted by the response simulator and every
survey with k items, the keys of the response starting with
surveyId-item- are exactly surveyId-item-0 through surveyId-item-(k-1),
zero-based and in order. -/
theorem c10_item_key_layout (students : List Student) (s0 : Nat) (resp : Obj)
    (hmem : resp ∈ (buildSurveyResponses students s0).1)
    (sv : Survey) (hsv : sv ∈ surveys) :
    (resp.map Prod.fst).filter (fun k => (sv.id ++ "-item-").data.isPrefixOf k.data)
      = (List.range sv.items).map (fun i => itemKey sv.id i) := by
  obtain ⟨st, w, elev, s2, hr⟩ := buildSurveyResponses_mem students s0 resp hmem
  obtain ⟨scores9, scores7, hl9, hl7, hb9, hb7, hresp⟩ := waveResp_spec st w elev s2
  have hfull : resp = fullResp st w scores9 scores7 := by
    rw [hr, hresp]
    try rfl
  subst hfull
  simp only [surveys, List.mem_cons, List.not_mem_nil, or_false] at hsv
  rcases hsv with h | h
  · subst h
    rw [fullResp_keys]
    decide
  · subst h
    rw [fullResp_keys]
    decide

/-- Witness for C10 at a concrete student, seed state 0 and the PHQ-9 survey. -/
theorem c10_item_key_layout_witness :
    sampleResp ∈ (buildSurveyResponses [sampleStudent] 0).1 ∧
      (sampleResp.map Prod.fst).filter
          (fun k => ((⟨"phq9", "PHQ-9", 9⟩ : Survey).id ++ "-item-").data.isPrefixOf k.data)
        = (List.range (⟨"phq9", "PHQ-9", 9⟩ : Survey).items).map
            (fun i => itemKey (⟨"phq9", "PHQ-9", 9⟩ : Survey).id i) := by
  have hmem : sampleResp ∈ (buildSurveyResponses [sampleStudent] 0).1 := by decide
  have hsv : (⟨"phq9", "PHQ-9", 9⟩ : Survey) ∈ surveys := by
    rw [show surveys = [⟨"phq9", "PHQ-9", 9⟩, ⟨"gad7", "GAD-7", 7⟩] from rfl]
    exact List.mem_cons_self _ _
  exact ⟨hmem, c10_item_key_layout [sampleStudent] 0 sampleResp hmem ⟨"phq9", "PHQ-9", 9⟩ hsv⟩


/-! ## Credential pool and assignment invariants, src/data.js lines 163-201 -/

theorem ceil125_ge (n : Nat) : n ≤ ceil125 n := by
  unfold ceil125
  omega

theorem nodup_append_one {α : Type} {l : List α} {a : α}
    (h : l.Nodup) (ha : ¬ a ∈ l) : (l ++ [a]).Nodup := by
  rw [List.nodup_append]
  exact ⟨h, List.nodup_singleton a, fun x hx hxa => ha ((List.mem_singleton.mp hxa) ▸ hx)⟩

theorem freshHash_ok (hs : Nat → String) (acc : List Cred) (schoolId : String) :
    ∀ (fuel k : Nat) (h : String) (k1 : Nat),
      freshHash hs acc schoolId k fuel = .ok (h, k1) →
      (acc.any (fun cred => cred.id = schoolId ++ "-" ++ h)) = false := by
  intro fuel
  induction fuel with
  | zero =>
    intro k h k1 hok
    rw [freshHash] at hok
    by_cases hc : (acc.any (fun cred => cred.id = schoolId ++ "-" ++ shortHash hs k 6)) = true
    · rw [if_pos hc] at hok
      simp at hok
    · rw [if_neg hc] at hok
      simp only [Except.ok.injEq, Prod.mk.injEq] at hok
      rw [← hok.1]
      exact Bool.not_eq_true _ ▸ hc
  | succ fuel ih =>
    intro k h k1 hok
    rw [freshHash] at hok
    by_cases hc : (acc.any (fun cred => cred.id = schoolId ++ "-" ++ shortHash hs k 6)) = true
    · rw [if_pos hc] at hok
      exact ih (k + 1) h k1 hok
    · rw [if_neg hc] at hok
      simp only [Except.ok.injEq, Prod.mk.injEq] at hok
      rw [← hok.1]
      exact Bool.not_eq_true _ ▸ hc

theorem freshHash_error (hs : Nat → String) (acc : List Cred) (schoolId : String) :
    ∀ (fuel k : Nat) (e : CredError),
      freshHash hs acc schoolId k fuel = .error e →
      e = CredError.hashRetryFuelExhausted := by
  intro fuel
  induction fuel with
  | zero =>
    intro k e hok
    rw [freshHash] at hok
    by_cases hc : (acc.any (fun cred => cred.id = schoolId ++ "-" ++ shortHash hs k 6)) = true
    · rw [if_pos hc] at hok
      simp only [Except.error.injEq] at hok
      exact hok.symm
    · rw [if_neg hc] at hok
      simp at hok
  | succ fuel ih =>
    intro k e hok
    rw [freshHash] at hok
    by_cases hc : (acc.any (fun cred => cred.id = schoolId ++ "-" ++ shortHash hs k 6)) = true
    · rw [if_pos hc] at hok
      exact ih (k + 1) e hok
    · rw [if_neg hc] at hok
      simp at hok

theorem genSchoolCreds_ok (hs : Nat → String) (sid : String) :
    ∀ (n : Nat) (acc : List Cred) (k fuel : Nat) (acc2 : List Cred) (k2 : Nat),
      genSchoolCreds hs sid n acc k fuel = .ok (acc2, k2) →
      (∀ S, ((acc2.filter (fun c => c.schoolId = S)).length
        = (acc.filter (fun c => c.schoolId = S)).length + (if sid = S then n else 0)))
      ∧ ((acc.map (fun c => c.id)).Nodup → (acc2.map (fun c => c.id)).Nodup) := by
  intro n
  induction n with
  | zero =>
    intro acc k fuel acc2 k2 hok
    rw [genSchoolCreds] at hok
    simp only [Except.ok.injEq, Prod.mk.injEq] at hok
    rw [← hok.1]
    exact ⟨fun S => by simp, fun h => h⟩
  | succ n ih =>
    intro acc k fuel acc2 k2 hok
    rw [genSchoolCreds] at hok
    rcases hf : freshHash hs acc sid k fuel with e | ⟨hash, k1⟩
    · rw [hf] at hok
      simp at hok
    · rw [hf] at hok
      try dsimp only at hok
      obtain ⟨hcount, hnd⟩ := ih _ _ _ _ _ hok
      have hfresh := freshHash_ok hs acc sid fuel k hash k1 hf
      have hnotin : ¬ (sid ++ "-" ++ hash) ∈ acc.map (fun c => c.id) := by
        intro hmem
        rcases List.mem_map.mp hmem with ⟨c, hc, hcid⟩
        have : acc.any (fun cred => cred.id = sid ++ "-" ++ hash) = true :=
          List.any_eq_true.mpr ⟨c, hc, by simp [hcid]⟩
        rw [hfresh] at this
        exact Bool.false_ne_true this
      refine ⟨fun S => ?_, fun h => hnd ?_⟩
      · rw [hcount S]
        by_cases hS : sid = S
        · subst hS
          simp [List.filter_append, List.filter_cons]
          omega
        · simp [List.filter_append, List.filter_cons, hS]
      · rw [List.map_append]
        exact nodup_append_one h (by simpa using hnotin)

theorem genSchoolCreds_error (hs : Nat → String) (sid : String) :
    ∀ (n : Nat) (acc : List Cred) (k fuel : Nat) (e : CredError),
      genSchoolCreds hs sid n acc k fuel = .error e →
      e = CredError.hashRetryFuelExhausted := by
  intro n
  induction n with
  | zero =>
    intro acc k fuel e hok
    rw [genSchoolCreds] at hok
    simp at hok
  | succ n ih =>
    intro acc k fuel e hok
    rw [genSchoolCreds] at hok
    rcases hf : freshHash hs acc sid k fuel with e0 | ⟨hash, k1⟩
    · rw [hf] at hok
      simp only [Except.error.injEq] at hok
      rw [← hok]
      exact freshHash_error hs acc sid fuel k e0 hf
    · rw [hf] at hok
      try dsimp only at hok
      exact ih _ _ _ _ hok

theorem poolLoop_ok (hs : Nat → String) (students : List Student) :
    ∀ (scs : List School) (acc : List Cred) (k s fuel : Nat)
      (pool : List Cred) (k2 s2 : Nat),
      poolLoop hs students scs acc k s fuel = .ok (pool, k2, s2) →
      (∀ S, ((pool.filter (fun c => c.schoolId = S)).length
        = (acc.filter (fun c => c.schoolId = S)).length
          + ((scs.filter (fun sc => sc.id = S)).map
              (fun sc => ceil125 ((students.filter
                (fun st => st.schoolId = sc.id)).length))).sum))
      ∧ ((acc.map (fun c => c.id)).Nodup → (pool.map (fun c => c.id)).Nodup) := by
  intro scs
  induction scs with
  | nil =>
    intro acc k s fuel pool k2 s2 hok
    rw [poolLoop] at hok
    simp only [Except.ok.injEq, Prod.mk.injEq] at hok
    rw [← hok.1]
    exact ⟨fun S => by simp, fun h => h⟩
  | cons sc rest ih =>
    intro acc k s fuel pool k2 s2 hok
    rw [poolLoop] at hok
    try dsimp only at hok
    rcases hg : genSchoolCreds hs sc.id
        (ceil125 ((students.filter (fun st => st.schoolId = sc.id)).length))
        acc k fuel with e | ⟨acc2, kk⟩
    · rw [hg] at hok
      simp at hok
    · rw [hg] at hok
      try dsimp only at hok
      obtain ⟨hcount2, hnd2⟩ := ih _ _ _ _ _ _ _ hok
      obtain ⟨hcount1, hnd1⟩ := genSchoolCreds_ok hs sc.id _ _ _ _ _ _ hg
      refine ⟨fun S => ?_, fun h => hnd2 (hnd1 h)⟩
      rw [hcount2 S, hcount1 S]
      by_cases hS : sc.id = S
      · simp [List.filter_cons, hS]
        omega
      · simp [List.filter_cons, hS]

theorem poolLoop_error (hs : Nat → String) (students : List Student) :
    ∀ (scs : List School) (acc : List Cred) (k s fuel : Nat) (e : CredError),
      poolLoop hs students scs acc k s fuel = .error e →
      e = CredError.hashRetryFuelExhausted := by
  intro scs
  induction scs with
  | nil =>
    intro acc k s fuel e hok
    rw [poolLoop] at hok
    simp at hok
  | cons sc rest ih =>
    intro acc k s fuel e hok
    rw [poolLoop] at hok
    try dsimp only at hok
    rcases hg : genSchoolCreds hs sc.id
        (ceil125 ((students.filter (fun st => st.schoolId = sc.id)).length))
        acc k fuel with e0 | ⟨acc2, kk⟩
    · rw [hg] at hok
      simp only [Except.error.injEq] at hok
      rw [← hok]
      exact genSchoolCreds_error hs sc.id _ _ _ _ _ hg
    · rw [hg] at hok
      try dsimp only at hok
      exact ih _ _ _ _ _ hok

def blankCred : Cred := ⟨"", "", ""⟩

def blankStudent : Student := ⟨"", "", "", ""⟩

theorem assignLoop_ok_shape (allCreds : List Cred) :
    ∀ (sts : List Student) (acc : List SCred) (out : List SCred),
      assignLoop allCreds sts acc = .ok out →
      ∃ cs : List Cred, cs.length = sts.length ∧
        out = acc ++ List.zipWith mkSCred sts cs ∧
        (∀ c ∈ cs, c ∈ allCreds) ∧
        (∀ i, i < sts.length →
          (cs.getD i blankCred).schoolId = (sts.getD i blankStudent).schoolId) ∧
        ((acc.map (fun a => a.id)).Nodup → (out.map (fun a => a.id)).Nodup) := by
  intro sts
  induction sts with
  | nil =>
    intro acc out hok
    rw [assignLoop] at hok
    simp only [Except.ok.injEq] at hok
    exact ⟨[], rfl, by simp [← hok], by simp, fun i hi => absurd hi (by simp), fun h => hok ▸ h⟩
  | cons st rest ih =>
    intro acc out hok
    rw [assignLoop] at hok
    try dsimp only at hok
    rcases hm : (allCreds.filter (fun c => c.schoolId = st.schoolId)).filter
        (fun c => ¬ acc.any (fun sc => sc.id = c.id)) with _ | ⟨c, cs0⟩
    · rw [hm] at hok
      simp at hok
    · rw [hm] at hok
      try dsimp only at hok
      obtain ⟨cs, hlen, hout, hmem, hschoolid, hnd⟩ := ih _ _ hok
      have hchead : c ∈ (allCreds.filter (fun c => c.schoolId = st.schoolId)).filter
          (fun c => ¬ acc.any (fun sc => sc.id = c.id)) := by
        rw [hm]
        exact List.mem_cons_self _ _
      have hcfilter := List.mem_of_mem_filter hchead
      have hcall : c ∈ allCreds := List.mem_of_mem_filter hcfilter
      have hcschool : c.schoolId = st.schoolId := by
        simpa using List.of_mem_filter hcfilter
      have hcfresh : ∀ a ∈ acc, a.id ≠ c.id := by
        have := List.of_mem_filter hchead
        simp only [decide_not, Bool.not_eq_true', List.any_eq_false, decide_eq_true_eq]
          at this
        simpa using this
      refine ⟨c :: cs, by simp [hlen], ?_, ?_, ?_, ?_⟩
      · rw [hout]
        simp [List.append_assoc]
      · intro x hx
        rcases List.mem_cons.mp hx with h | h
        · exact h ▸ hcall
        · exact hmem x h
      · intro i hi
        cases i with
        | zero => simpa [mkSCred] using hcschool
        | succ j =>
          have := hschoolid j (by simpa using hi)
          simpa using this
      · intro hndacc
        have hnd2 : ((acc ++ [mkSCred st c]).map (fun a => a.id)).Nodup := by
          rw [List.map_append]
          refine nodup_append_one hndacc ?_
          intro hmem2
          rcases List.mem_map.mp hmem2 with ⟨a, ha, haid⟩
          exact hcfresh a ha (by simpa [mkSCred] using haid)
        exact hnd hnd2

theorem assignLoop_total (allCreds : List Cred)
    (hnd : (allCreds.map (fun c => c.id)).Nodup) :
    ∀ (sts : List Student) (acc : List SCred),
      (∀ a ∈ acc, ∃ c ∈ allCreds, c.id = a.id ∧ c.schoolId = a.schoolId) →
      ((acc.map (fun a => a.id)).Nodup) →
      (∀ S : String,
        (sts.filter (fun st => st.schoolId = S)).length
          + (acc.filter (fun a => a.schoolId = S)).length
          ≤ (allCreds.filter (fun c => c.schoolId = S)).length) →
      ∃ out, assignLoop allCreds sts acc = .ok out := by
  intro sts
  induction sts with
  | nil =>
    intro acc _ _ _
    exact ⟨acc, by rw [assignLoop]⟩
  | cons st rest ih =>
    intro acc h2 h3 h4
    rcases hm : (allCreds.filter (fun c => c.schoolId = st.schoolId)).filter
        (fun c => ¬ acc.any (fun sc => sc.id = c.id)) with _ | ⟨c, cs0⟩
    · exfalso
      have hall : ∀ c ∈ allCreds.filter (fun c => c.schoolId = st.schoolId),
          ∃ a ∈ acc, a.id = c.id := by
        intro c hc
        have h0 := List.filter_eq_nil_iff.mp hm c hc
        simp only [decide_not, Bool.not_eq_true', decide_eq_false_iff_not, not_not,
          Bool.not_eq_false] at h0
        simpa [List.any_eq_true] using h0
      have hsub : (allCreds.filter (fun c => c.schoolId = st.schoolId)).map (fun c => c.id)
          ⊆ (acc.filter (fun a => a.schoolId = st.schoolId)).map (fun a => a.id) := by
        intro x hx
        rcases List.mem_map.mp hx with ⟨c, hc, rfl⟩
        rcases hall c hc with ⟨a, ha, haid⟩
        rcases h2 a ha with ⟨c2, hc2, hcid, hcs⟩
        have hceq : c2 = c := by
          apply List.inj_on_of_nodup_map hnd hc2 (List.mem_of_mem_filter hc)
          rw [hcid, haid]
        have hcschool : c.schoolId = st.schoolId := by
          simpa using List.of_mem_filter hc
        have haschool : a.schoolId = st.schoolId := by
          rw [← hcs, hceq, hcschool]
        exact List.mem_map.mpr
          ⟨a, List.mem_filter.mpr ⟨ha, by simpa using haschool⟩, haid⟩
      have hndL : ((allCreds.filter (fun c => c.schoolId = st.schoolId)).map
          (fun c => c.id)).Nodup :=
        ((List.filter_sublist allCreds).map (fun c => c.id)).nodup hnd
      have hle := (hndL.subperm hsub).length_le
      rw [List.length_map, List.length_map] at hle
      have h4S := h4 st.schoolId
      rw [List.filter_cons] at h4S
      rw [if_pos (by simp)] at h4S
      rw [List.length_cons] at h4S
      omega
    · have hchead : c ∈ (allCreds.filter (fun c => c.schoolId = st.schoolId)).filter
          (fun c => ¬ acc.any (fun sc => sc.id = c.id)) := by
        rw [hm]
        exact List.mem_cons_self _ _
      have hcfilter := List.mem_of_mem_filter hchead
      have hcall : c ∈ allCreds := List.mem_of_mem_filter hcfilter
      have hcschool : c.schoolId = st.schoolId := by
        simpa using List.of_mem_filter hcfilter
      have hcfresh : ∀ a ∈ acc, a.id ≠ c.id := by
        have := List.of_mem_filter hchead
        simp only [decide_not, Bool.not_eq_true', List.any_eq_false, decide_eq_true_eq]
          at this
        simpa using this
      have h2n : ∀ a ∈ acc ++ [mkSCred st c],
          ∃ c2 ∈ allCreds, c2.id = a.id ∧ c2.schoolId = a.schoolId := by
        intro a ha
        rcases List.mem_append.mp ha with h | h
        · exact h2 a h
        · rw [List.mem_singleton.mp h]
          exact ⟨c, hcall, rfl, rfl⟩
      have h3n : (((acc ++ [mkSCred st c]).map (fun a => a.id)).Nodup) := by
        rw [List.map_append]
        refine nodup_append_one h3 ?_
        intro hmem2
        rcases List.mem_map.mp hmem2 with ⟨a, ha, haid⟩
        exact hcfresh a ha (by simpa [mkSCred] using haid)
      have h4n : ∀ S : String,
          (rest.filter (fun st => st.schoolId = S)).length
            + ((acc ++ [mkSCred st c]).filter (fun a => a.schoolId = S)).length
            ≤ (allCreds.filter (fun c => c.schoolId = S)).length := by
        intro S
        have h4S := h4 S
        rw [List.filter_cons] at h4S
        rw [List.filter_append]
        rw [List.length_append]
        by_cases hS : st.schoolId = S
        · rw [if_pos (by simpa using hS)] at h4S
          rw [List.length_cons] at h4S
          have hone : (([mkSCred st c]).filter (fun a => a.schoolId = S)).length = 1 := by
            simp [List.filter_cons, mkSCred, hcschool, hS]
          omega
        · rw [if_neg (by simpa using hS)] at h4S
          have hzero : (([mkSCred st c]).filter (fun a => a.schoolId = S)).length = 0 := by
            simp [List.filter_cons, mkSCred, hcschool, hS]
          omega
      obtain ⟨out, hout⟩ := ih (acc ++ [mkSCred st c]) h2n h3n h4n
      refine ⟨out, ?_⟩
      rw [assignLoop]
      try dsimp only
      rw [hm]
      try dsimp only
      exact hout


/-- C4: with the pools buildCredentials builds for the generated students,
every school pool holds exactly ceil(1.25 x its student count) records;
on success the assignment phase pairs the students positionally with
credentials of their own school, no credential id is assigned twice, and
the only reachable failure is exhaustion of the hash-retry fuel — the
InsufficientCredentials throw is unreachable. -/
theorem c4_credential_matching (students : List Student) (hs : Nat → String)
    (k s fuel : Nat)
    (hschool : ∀ st ∈ students, st.schoolId ∈ schools.map School.id) :
    (∀ e, buildCredentials students hs k s fuel = Except.error e →
        e = CredError.hashRetryFuelExhausted)
    ∧ (∀ out, buildCredentials students hs k s fuel = Except.ok out →
        (∀ sc ∈ schools,
          (out.allCredentials.filter (fun c => c.schoolId = sc.id)).length
            = ceil125 ((students.filter (fun st => st.schoolId = sc.id)).length))
        ∧ ∃ cs : List Cred, cs.length = students.length ∧
            out.studentCreds = List.zipWith mkSCred students cs ∧
            (∀ c ∈ cs, c ∈ out.allCredentials) ∧
            (∀ i, i < students.length →
              (cs.getD i blankCred).schoolId = (students.getD i blankStudent).schoolId) ∧
            ((out.studentCreds.map (fun a => a.id)).Nodup)) := by
  rcases hp : poolLoop hs students schools [] k s fuel with e0 | ⟨pool, kk, ss⟩
  · have he0 := poolLoop_error hs students schools [] k s fuel e0 hp
    constructor
    · intro e he
      unfold buildCredentials at he
      rw [hp] at he
      simp only [Except.error.injEq] at he
      rw [← he]
      exact he0
    · intro out hout
      unfold buildCredentials at hout
      rw [hp] at hout
      simp at hout
  · obtain ⟨hcounts, hnodup0⟩ :=
      poolLoop_ok hs students schools [] k s fuel pool kk ss hp
    have hndpool : (pool.map (fun c => c.id)).Nodup := hnodup0 (by simp)
    have h4 : ∀ S : String,
        (students.filter (fun st => st.schoolId = S)).length
          ≤ (pool.filter (fun c => c.schoolId = S)).length := by
      intro S
      rcases hfe : students.filter (fun st => st.schoolId = S) with _ | ⟨st0, sts0⟩
      · rw [hfe]
        simp
      · have hst0 : st0 ∈ students.filter (fun st => st.schoolId = S) := by
          rw [hfe]
          exact List.mem_cons_self _ _
        have hmem := List.mem_of_mem_filter hst0
        have hS : st0.schoolId = S := by simpa using List.of_mem_filter hst0
        rcases List.mem_map.mp (hschool st0 hmem) with ⟨sc, hscmem, hscid⟩
        have hcS := hcounts S
        simp only [List.filter_nil, List.length_nil, Nat.zero_add] at hcS
        rw [hcS]
        have hterm : ceil125 ((students.filter
              (fun st => st.schoolId = sc.id)).length)
            ∈ (schools.filter (fun x => x.id = S)).map
              (fun x => ceil125 ((students.filter
                (fun st => st.schoolId = x.id)).length)) :=
          List.mem_map_of_mem _
            (List.mem_filter.mpr ⟨hscmem, by simp [hscid, hS]⟩)
        have hsum := List.single_le_sum
          (fun x hx => Nat.zero_le x) _ hterm
        calc (students.filter (fun st => st.schoolId = S)).length
            ≤ ceil125 ((students.filter (fun st => st.schoolId = S)).length) :=
              ceil125_ge _
          _ = ceil125 ((students.filter (fun st => st.schoolId = sc.id)).length) := by
              rw [hscid, hS]
          _ ≤ _ := hsum
    obtain ⟨scs, hassign⟩ := assignLoop_total pool hndpool students []
      (by simp) (by simp) (by simpa using h4)
    constructor
    · intro e he
      unfold buildCredentials at he
      rw [hp] at he
      try dsimp only at he
      rw [hassign] at he
      simp at he
    · intro out hout
      unfold buildCredentials at hout
      rw [hp] at hout
      try dsimp only at hout
      rw [hassign] at hout
      try dsimp only at hout
      simp only [Except.ok.injEq] at hout
      rw [← hout]
      constructor
      · intro sc hsc
        have hc := hcounts sc.id
        simp only [List.filter_nil, List.length_nil, Nat.zero_add] at hc
        have hsc5 : sc = (⟨"oxford-high", "Oxford High", "oxford-ttp"⟩ : School)
            ∨ sc = ⟨"cherwell", "Cherwell School", "oxford-ttp"⟩
            ∨ sc = ⟨"magdalen", "Magdalen College School", "oxford-ttp"⟩
            ∨ sc = ⟨"pudong-high", "Pudong High School", "shanghai-ttp"⟩
            ∨ sc = ⟨"huangpu-academy", "Huangpu Academy", "shanghai-ttp"⟩ := by
          simpa [schools] using hsc
        rcases hsc5 with h | h | h | h | h <;>
          (subst h
           rw [hc]
           simp [schools])
      · obtain ⟨cs, hlen, hshape, hmemcs, hschoolcs, hnodupids⟩ :=
          assignLoop_ok_shape pool students [] scs hassign
        exact ⟨cs, hlen, by simpa using hshape, hmemcs, hschoolcs,
          by
            have := hnodupids (by simp)
            simpa using this⟩

def wHash : Nat → String := fun k => natStr k ++ "aaaaaa"

/-- Witness for C4: one concrete student, whose school id is in the
catalog, for which the insufficient-credentials throw cannot occur. -/
theorem c4_credential_matching_witness :
    (∀ st ∈ [sampleStudent], st.schoolId ∈ schools.map School.id) ∧
      buildCredentials [sampleStudent] wHash 0 0 9 ≠ Except.error
        (CredError.insufficientCredentials sampleStudent.id sampleStudent.schoolId) := by
  have hsch : ∀ st ∈ [sampleStudent], st.schoolId ∈ schools.map School.id := by decide
  have h := c4_credential_matching [sampleStudent] wHash 0 0 9 hsch
  refine ⟨hsch, ?_⟩
  intro hcontra
  exact absurd (h.1 _ hcontra) (by decide)

end IBData
